import Mathlib

/-!
Verification of the résumé validation/reconciliation engine of `src/app.py`.

The engine manipulates JSON-like Python values (dicts, lists, strings, …).
We embed those values as the inductive type `PyVal` and translate each engine
function (`safe_strip`, `sanitize_multiline`, `validate_resume_data`,
`is_duplicate_entry`, `has_problematic_characters`, the inline reconcile/save
step of `main`, and `clean_encoding`) into an executable Lean function over
`PyVal`.  Code paths that raise Python exceptions (attribute access on a
non-dict, iterating a non-iterable) are modelled with `Except String`.

String primitives (`str.strip`, `str.lower`, `str.splitlines`, `str.isupper`)
are modelled for the ASCII range that the engine's own string constants live
in; Python's extra Unicode whitespace/case classes are not modelled.
-/

/-- A Python value as handled by the engine: `None`, booleans, integers,
strings, lists, and string-keyed dicts (association lists in insertion
order, as Python dicts preserve insertion order). -/
inductive PyVal where
  | none
  | bool (b : Bool)
  | int (n : Int)
  | str (s : String)
  | list (xs : List PyVal)
  | dict (kvs : List (String × PyVal))

/-- Python whitespace for `str.strip` / `str.splitlines`, ASCII range. -/
def pyIsSpace (c : Char) : Bool :=
  c = ' ' || c = '\t' || c = '\n' || c = '\x0d' || c = '\x0b' || c = '\x0c'

/-- Left strip (Python `str.lstrip` over a char list). -/
def lstripChars (cs : List Char) : List Char :=
  cs.dropWhile pyIsSpace

/-- Right strip (Python `str.rstrip` over a char list). -/
def rstripChars (cs : List Char) : List Char :=
  (cs.reverse.dropWhile pyIsSpace).reverse

/-- Python `str.strip()`. -/
def pyStrip (s : String) : String :=
  ⟨rstripChars (lstripChars s.data)⟩

/-- Python `str.lower()` (ASCII case mapping). -/
def pyLower (s : String) : String :=
  ⟨s.data.map Char.toLower⟩

/-- Python `str.isupper()`: at least one cased character and no lowercase
character (ASCII model). -/
def pyIsUpper (s : String) : Bool :=
  s.data.any (fun c => c.isAlpha) && s.data.all (fun c => !c.isLower)

mutual
/-- Python `str.splitlines()` over `\n`, `\r\n` and `\r` boundaries:
no entry is produced for a terminal newline, `""` gives `[]`. -/
def pySplitGo : List Char → List Char → List String
  | [], acc => if acc.isEmpty then [] else [⟨acc.reverse⟩]
  | '\n' :: rest, acc => ⟨acc.reverse⟩ :: pySplitGo rest []
  | '\x0d' :: rest, acc => ⟨acc.reverse⟩ :: pySplitCr rest
  | c :: rest, acc => pySplitGo rest (c :: acc)

/-- State after a bare `\r`: a following `\n` belongs to the same boundary. -/
def pySplitCr : List Char → List String
  | [] => []
  | '\n' :: rest => pySplitGo rest []
  | '\x0d' :: rest => ⟨[]⟩ :: pySplitCr rest
  | c :: rest => pySplitGo rest [c]
end

def pySplitlines (s : String) : List String :=
  pySplitGo s.data []

mutual
/-- Python `repr` of a value (simplified: string escapes are not rendered,
which the engine never relies on — `str()` of a list/dict never feeds a
branch any claim depends on). -/
def pyRepr : PyVal → String
  | .none => "None"
  | .bool true => "True"
  | .bool false => "False"
  | .int n => toString n
  | .str s => "\x27" ++ s ++ "\x27"
  | .list xs => "[" ++ String.intercalate ", " (pyReprList xs) ++ "]"
  | .dict kvs => "\x7b" ++ String.intercalate ", " (pyReprDict kvs) ++ "\x7d"

def pyReprList : List PyVal → List String
  | [] => []
  | v :: vs => pyRepr v :: pyReprList vs

def pyReprDict : List (String × PyVal) → List String
  | [] => []
  | (k, v) :: kvs => ("\x27" ++ k ++ "\x27: " ++ pyRepr v) :: pyReprDict kvs
end

/-- Python `str()` of a value. -/
def pyStr : PyVal → String
  | .str s => s
  | v => pyRepr v

/-- Python truthiness of a value. -/
def truthy : PyVal → Bool
  | .none => false
  | .bool b => b
  | .int n => n ≠ 0
  | .str s => s ≠ ""
  | .list xs => !xs.isEmpty
  | .dict kvs => !kvs.isEmpty

def isDict : PyVal → Bool
  | .dict _ => true
  | _ => false

-- Dict primitives (Python dicts in insertion order).

/-- `d[k]` lookup returning `Option`; Python `dict.get` without default. -/
def dictGet : List (String × PyVal) → String → Option PyVal
  | [], _ => Option.none
  | (k, v) :: rest, key => if k = key then some v else dictGet rest key

/-- Python `d.get(key, default)`. -/
def dictGetD (kvs : List (String × PyVal)) (key : String) (dflt : PyVal) : PyVal :=
  (dictGet kvs key).getD dflt

/-- Python `d[key] = val`: updates an existing binding in place, otherwise
appends (insertion order). -/
def dictSet : List (String × PyVal) → String → PyVal → List (String × PyVal)
  | [], key, val => [(key, val)]
  | (k, v) :: rest, key, val =>
      if k = key then (k, val) :: rest else (k, v) :: dictSet rest key val

/-- Python `d.pop(key, None)` (the engine only uses the removal effect). -/
def dictPop (kvs : List (String × PyVal)) (key : String) : List (String × PyVal) :=
  kvs.filter (fun p => ¬ p.1 = key)

def dictHasKey (kvs : List (String × PyVal)) (key : String) : Bool :=
  (dictGet kvs key).isSome

/-- Python attribute access `v.get(key, default)`: raises `AttributeError`
when `v` is not a dict (app.py relies on this raising for malformed input). -/
def pyGetD (v : PyVal) (key : String) (dflt : PyVal) : Except String PyVal :=
  match v with
  | .dict kvs => .ok (dictGetD kvs key dflt)
  | _ => .error "AttributeError"

/-- Python `enumerate(xs, start)` / `for ... in v`: lists yield elements,
strings yield their characters, dicts yield their keys, anything else
raises `TypeError`. -/
def pyIterate (v : PyVal) : Except String (List PyVal) :=
  match v with
  | .list xs => .ok xs
  | .str s => .ok (s.data.map (fun c => .str ⟨[c]⟩))
  | .dict kvs => .ok (kvs.map (fun p => .str p.1))
  | _ => .error "TypeError"

def enumerateFrom (start : Nat) : List PyVal → List (Nat × PyVal)
  | [] => []
  | x :: rest => (start, x) :: enumerateFrom (start + 1) rest

-- app.py:106-111 `safe_strip`
def safe_strip (value : PyVal) : String :=
  match value with
  | .none => ""
  | .str s => pyStrip s
  | v => pyStrip (pyStr v)

-- app.py:98-103 `sanitize_multiline`
def sanitize_multiline (text : PyVal) : List String :=
  if ¬ truthy text then []
  else
    match text with
    | .list xs =>
        xs.filterMap (fun line =>
          match line with
          | .str s => if pyStrip s = "" then Option.none else some (pyStrip s)
          | _ => Option.none)
    | t =>
        (pySplitlines (pyStr t)).filterMap (fun line =>
          if pyStrip line = "" then Option.none else some (pyStrip line))

-- app.py:250-262 `has_problematic_characters`

/-- `true` iff `a` immediately followed by `b` occurs in the list. -/
def hasAdj (a b : Char) : List Char → Bool
  | c :: d :: rest => (c = a && d = b) || hasAdj a b (d :: rest)
  | _ => false

/-- Membership in the regex class `[\x00-\x08\x0B\x0C\x0E-\x1F]`. -/
def isBadControl (c : Char) : Bool :=
  c.toNat ≤ 0x08 || c.toNat = 0x0b || c.toNat = 0x0c ||
    (0x0e ≤ c.toNat && c.toNat ≤ 0x1f)

def has_problematic_characters (text : String) : Bool :=
  hasAdj 'â' '€' text.data || text.data.any isBadControl ||
    text.data.any (fun c => c = '�')

-- app.py:265-281 `is_duplicate_entry`

structure Signature where
  title : String
  company : String
  degree : String
  institution : String

def sigDefault : Signature := ⟨"", "", "", ""⟩

def sigOfDict (kvs : List (String × PyVal)) : Signature where
  title := pyLower (safe_strip (dictGetD kvs "title" (.str "")))
  company := pyLower (safe_strip (dictGetD kvs "company" (.str "")))
  degree := pyLower (safe_strip (dictGetD kvs "degree" (.str "")))
  institution := pyLower (safe_strip (dictGetD kvs "institution" (.str "")))

/-- `get_signature` inside `is_duplicate_entry`: `.get` raises on a non-dict. -/
def get_signature : PyVal → Except String Signature
  | .dict kvs => .ok (sigOfDict kvs)
  | _ => .error "AttributeError"

/-- Total signature of a dict value (used only to state theorems about
lists of dict entries). -/
def sigOfVal : PyVal → Signature
  | .dict kvs => sigOfDict kvs
  | _ => sigDefault

def pairScore (a b : String) : Nat :=
  if ¬ a = "" ∧ ¬ b = "" ∧ a = b then 1 else 0

/-- `sum(1 for a, b in zip(sig1, sig2) if a and b and a == b)`. -/
def matchCount (s1 s2 : Signature) : Nat :=
  pairScore s1.title s2.title + pairScore s1.company s2.company +
    pairScore s1.degree s2.degree + pairScore s1.institution s2.institution

def is_duplicate_entry (entry1 entry2 : PyVal) : Except String Bool := do
  let sig1 ← get_signature entry1
  let sig2 ← get_signature entry2
  return 2 ≤ matchCount sig1 sig2

-- app.py:142-247 `validate_resume_data`

-- Name rules (app.py:150-157)
def nameChecks (name : String) : List String × List String :=
  if name = "" then (["Candidate name is empty."], [])
  else if name.length < 3 then ([], ["Name seems too short - is it complete?"])
  else if pyIsUpper name && name.length > 10 then
    ([], ["Name is in all caps - consider using proper case."])
  else ([], [])

def expMsg (idx : Nat) (suffix : String) : String :=
  "Experience #" ++ toString idx ++ suffix

def bulletMsg (idx bidx : Nat) (suffix : String) : String :=
  "Experience #" ++ toString idx ++ ", bullet " ++ toString bidx ++ suffix

-- Bullet rules (app.py:186-190), `bidx` enumerates from 1
def bulletChecks (idx : Nat) : Nat → List String → List String
  | _, [] => []
  | bidx, b :: rest =>
      (if (pyStrip b).length < 10 then
        [bulletMsg idx bidx " is too short (less than 10 characters)."] else [])
      ++ (if has_problematic_characters b then
        [bulletMsg idx bidx " contains special characters that may not render properly."] else [])
      ++ bulletChecks idx (bidx + 1) rest

-- Per-entry experience rules (app.py:164-190)
def expEntryChecks (idx : Nat) (entry : PyVal) :
    Except String (List String × List String) := do
  let entry_data := if truthy entry then entry else .dict []
  let title := safe_strip (← pyGetD entry_data "title" (.str ""))
  let company := safe_strip (← pyGetD entry_data "company" (.str ""))
  let dates := safe_strip (← pyGetD entry_data "dates" (.str ""))
  let description := sanitize_multiline (← pyGetD entry_data "description" (.list []))
  let errors := if title = "" && company = "" then
    [expMsg idx " is missing both title and company."] else []
  let w1 := if title = "" then [expMsg idx " is missing job title."] else []
  let w2 := if company = "" then [expMsg idx " is missing company name."] else []
  let w3 := if dates = "" then [expMsg idx " is missing dates."] else []
  let w4 := if description.isEmpty then [expMsg idx " has no bullet points."]
    else bulletChecks idx 1 description
  return (errors, w1 ++ w2 ++ w3 ++ w4)

def expLoop : Nat → List PyVal → Except String (List String × List String)
  | _, [] => .ok ([], [])
  | idx, e :: rest => do
      let (er, wr) ← expEntryChecks idx e
      let (er2, wr2) ← expLoop (idx + 1) rest
      return (er ++ er2, wr ++ wr2)

def dupMsg (i j : Nat) : String :=
  "Experience #" ++ toString (i + 1) ++ " and #" ++ toString (j + 1) ++
    " appear to be duplicates."

def dupScanInner (x : PyVal) (i : Nat) :
    List (Nat × PyVal) → Except String (List String)
  | [] => .ok []
  | (j, y) :: rest => do
      let d ← is_duplicate_entry x y
      let ws ← dupScanInner x i rest
      return (if d then [dupMsg i j] else []) ++ ws

def dupScanOuter : List (Nat × PyVal) → Except String (List String)
  | [] => .ok []
  | (i, x) :: rest => do
      let w1 ← dupScanInner x i rest
      let w2 ← dupScanOuter rest
      return w1 ++ w2

-- Duplicate scan (app.py:192-197): `for i in range(n): for j in range(i+1, n)`
def dupWarnings (exps : List PyVal) : Except String (List String) :=
  if exps.length > 1 then dupScanOuter (enumerateFrom 0 exps) else .ok []

-- Experience section (app.py:159-197)
def expChecks (experience : PyVal) : Except String (List String × List String) :=
  if ¬ truthy experience then .ok (["No experience entries provided."], [])
  else do
    let xs ← pyIterate experience
    let (er, wr) ← expLoop 1 xs
    let dw ← dupWarnings xs
    return (er, wr ++ dw)

-- Per-entry education rules (app.py:204-218)
def eduEntryChecks (idx : Nat) (entry : PyVal) :
    Except String (List String × List String) := do
  let entry_data := if truthy entry then entry else .dict []
  let degree := safe_strip (← pyGetD entry_data "degree" (.str ""))
  let institution := safe_strip (← pyGetD entry_data "institution" (.str ""))
  let dates := safe_strip (← pyGetD entry_data "dates" (.str ""))
  if degree = "" && institution = "" && dates = "" then
    return (["Education entry #" ++ toString idx ++ " is completely empty."], [])
  else
    return ([],
      (if degree = "" then ["Education #" ++ toString idx ++ " is missing degree/credential."] else [])
      ++ (if institution = "" then ["Education #" ++ toString idx ++ " is missing institution name."] else [])
      ++ (if dates = "" then ["Education #" ++ toString idx ++ " is missing dates."] else []))

def eduLoop : Nat → List PyVal → Except String (List String × List String)
  | _, [] => .ok ([], [])
  | idx, e :: rest => do
      let (er, wr) ← eduEntryChecks idx e
      let (er2, wr2) ← eduLoop (idx + 1) rest
      return (er ++ er2, wr ++ wr2)

-- Education section (app.py:199-218)
def eduChecks (education : PyVal) : Except String (List String × List String) :=
  if ¬ truthy education then
    .ok ([], ["No education entries provided - consider adding your educational background."])
  else do
    let xs ← pyIterate education
    eduLoop 1 xs

def sectionMsgT (t : String) (rest : String) : String :=
  "Section \x27" ++ t ++ "\x27" ++ rest

-- Structured-section per-entry rule (app.py:233-237)
def structEntryCheck (stitle : String) (eidx : Nat) (entry : PyVal) :
    Except String (List String) := do
  let t ← pyGetD entry "title" (.str "")
  let o ← pyGetD entry "organization" (.str "")
  let d ← pyGetD entry "description" (.list [])
  if safe_strip t = "" && safe_strip o = "" && ¬ truthy d then
    return [sectionMsgT stitle (", entry #" ++ toString eidx ++ " is empty.")]
  else
    return []

def structEntriesLoop (stitle : String) :
    Nat → List PyVal → Except String (List String)
  | _, [] => .ok []
  | eidx, e :: rest => do
      let w ← structEntryCheck stitle eidx e
      let ws ← structEntriesLoop stitle (eidx + 1) rest
      return w ++ ws

-- List-section per-item rule (app.py:243-245)
def listItemsLoop (stitle : String) : Nat → List PyVal → List String
  | _, [] => []
  | iidx, item :: rest =>
      (if (safe_strip item).length < 3 then
        [sectionMsgT stitle (", item #" ++ toString iidx ++ " is too short.")] else [])
      ++ listItemsLoop stitle (iidx + 1) rest

/-- Python `v == "lit"` for a string literal: equal only when `v` is that
string (comparison with any other type is `False`). -/
def isStrEq (v : PyVal) (s : String) : Bool :=
  match v with
  | .str t => t = s
  | _ => false

-- Per-section rules (app.py:222-245)
def sectionChecks (sidx : Nat) (sec : PyVal) : Except String (List String) := do
  let section_title := safe_strip (← pyGetD sec "section_title" (.str ""))
  let section_type ← pyGetD sec "type" (.str "")
  let w0 := if section_title = "" then
    ["Additional section #" ++ toString sidx ++ " has no title."] else []
  if isStrEq section_type "structured" then
    let entries ← pyGetD sec "entries" (.list [])
    let w1 := if ¬ truthy entries then [sectionMsgT section_title " has no entries."] else []
    let es ← pyIterate entries
    let w2 ← structEntriesLoop section_title 1 es
    return w0 ++ w1 ++ w2
  else if isStrEq section_type "list" then
    let items ← pyGetD sec "items" (.list [])
    let w1 := if ¬ truthy items then [sectionMsgT section_title " has no items."] else []
    let its ← pyIterate items
    return w0 ++ w1 ++ listItemsLoop section_title 1 its
  else
    return w0

def sectionLoop : Nat → List PyVal → Except String (List String)
  | _, [] => .ok []
  | sidx, s :: rest => do
      let w ← sectionChecks sidx s
      let ws ← sectionLoop (sidx + 1) rest
      return w ++ ws

-- Other-sections block (app.py:220-245); unguarded `enumerate`.
def otherChecks (other_sections : PyVal) : Except String (List String) := do
  let ss ← pyIterate other_sections
  sectionLoop 1 ss

/-- app.py:142-247 `validate_resume_data`: returns the ordered
(errors, warnings) pair, or an exception (as `.error`) when a nested
access raises. -/
def validate_resume_data (data : PyVal) : Except String (List String × List String) :=
  match data with
  | .dict kvs => do
      let (e1, w1) := nameChecks (safe_strip (dictGetD kvs "name" (.str "")))
      let (e2, w2) ← expChecks (dictGetD kvs "experience" (.list []))
      let (e3, w3) ← eduChecks (dictGetD kvs "education" (.list []))
      let w4 ← otherChecks (dictGetD kvs "other_sections" (.list []))
      return (e1 ++ e2 ++ e3, w1 ++ w2 ++ w3 ++ w4)
  | _ => .ok (["Parsed resume data is not in the expected format."], [])

-- app.py:292-308 `clean_encoding` (inside `parse_resume_with_gemini`)

/-- Python `str.replace(old, new)`: left-to-right, non-overlapping.
Structural on a fuel argument (seeded with the list length, which the
scan never exceeds) so that it reduces definitionally. -/
def replaceAllAux (old new : List Char) : Nat → List Char → List Char
  | 0, l => l
  | _ + 1, [] => []
  | n + 1, c :: rest =>
      if old ≠ [] ∧ old.isPrefixOf (c :: rest) then
        new ++ replaceAllAux old new n (rest.drop (old.length - 1))
      else
        c :: replaceAllAux old new n rest

def replaceAll (old new l : List Char) : List Char :=
  replaceAllAux old new l.length l

/-- `str.maketrans('₀₁₂₃₄₅₆₇₈₉', '0123456789')` as a character map. -/
def subDigit (c : Char) : Char :=
  if c = '₀' then '0' else if c = '₁' then '1' else if c = '₂' then '2'
  else if c = '₃' then '3' else if c = '₄' then '4' else if c = '₅' then '5'
  else if c = '₆' then '6' else if c = '₇' then '7' else if c = '₈' then '8'
  else if c = '₉' then '9' else c

/-- `str.maketrans('⁰¹²³⁴⁵⁶⁷⁸⁹', '0123456789')` as a character map. -/
def supDigit (c : Char) : Char :=
  if c = '⁰' then '0' else if c = '¹' then '1' else if c = '²' then '2'
  else if c = '³' then '3' else if c = '⁴' then '4' else if c = '⁵' then '5'
  else if c = '⁶' then '6' else if c = '⁷' then '7' else if c = '⁸' then '8'
  else if c = '⁹' then '9' else c

/-- The "smart apostrophes" line of `clean_encoding` as Python actually
lexes it.  In the source file the smart-quote characters have degraded to
ASCII quotes, so that line reads `text.replace(''', "'").replace(''', "'")`
and the `'''` opens a triple-quoted string: the line is one call replacing
the literal 15-character text `, "'").replace(` with a single apostrophe. -/
def accidentalPattern : List Char :=
  [',', ' ', '"', '\x27', '"', ')', '.', 'r', 'e', 'p', 'l', 'a', 'c', 'e', '(']

/-- app.py:292-308 `clean_encoding`, replacement by replacement in source
order.  The two smart-quote replaces are `'"' -> '"'` (identity) for the
same source-degradation reason, and the third character of the
"corrupted en-dash" pattern is likewise an ASCII `"`. -/
def clean_encoding (s : String) : String :=
  let t := s.data
  let t := replaceAll ['–'] ['-'] t
  let t := replaceAll ['—'] ['-'] t
  let t := replaceAll ['"'] ['"'] t
  let t := replaceAll ['"'] ['"'] t
  let t := replaceAll accidentalPattern ['\x27'] t
  let t := replaceAll ['…'] ['.', '.', '.'] t
  let t := replaceAll ['â', '€', '"'] ['-'] t
  let t := replaceAll ['â', '€', 'œ'] ['"'] t
  let t := replaceAll ['â', '€'] ['"'] t
  let t := replaceAll ['â', '€', '™'] ['\x27'] t
  let t := replaceAll ['â', '€', '˜'] ['\x27'] t
  let t := replaceAll ['â', '€', '¢'] ['•'] t
  let t := replaceAll ['â', '€', '¦'] ['.', '.', '.'] t
  let t := t.map subDigit
  let t := t.map supDigit
  ⟨t⟩

-- The reconcile/save step of `main` (app.py:926-1029).  The edited-field
-- values come from the form widgets; they are free string/flag inputs here.

structure ExpInput where
  title : String
  company : String
  dates : String
  description_text : String
  remove : Bool

structure EduInput where
  degree : String
  institution : String
  dates : String
  details_text : String
  remove : Bool

structure StructEntryInput where
  title : String
  organization : String
  dates : String
  description_text : String
  remove : Bool

structure SectionInput where
  section_title : String
  section_type : String
  remove : Bool
  entries_input : List StructEntryInput
  items_input : String

structure EditInputs where
  name_value : String
  version_value : String
  email_value : String
  phone_value : String
  mobile_value : String
  location_value : String
  linkedin_value : String
  website_value : String
  github_value : String
  contact_details_value : String
  experience_inputs : List ExpInput
  education_inputs : List EduInput
  other_sections_inputs : List SectionInput

-- app.py:930-935 `cleaned_entry` for an experience input
def cleanedExpEntry (e : ExpInput) : List (String × PyVal) :=
  [("title", .str (pyStrip e.title)),
   ("company", .str (pyStrip e.company)),
   ("dates", .str (pyStrip e.dates)),
   ("description", .list ((sanitize_multiline (.str e.description_text)).map PyVal.str))]

-- app.py:926-937 `sanitized_experience`
def sanitized_experience (inputs : List ExpInput) : List PyVal :=
  inputs.filterMap (fun e =>
    if e.remove then Option.none
    else if pyStrip e.title ≠ "" ∨ pyStrip e.company ≠ "" ∨ pyStrip e.dates ≠ "" ∨
        sanitize_multiline (.str e.description_text) ≠ [] then
      some (.dict (cleanedExpEntry e))
    else Option.none)

-- app.py:943-948 `cleaned_entry` for an education input
def cleanedEduEntry (e : EduInput) : List (String × PyVal) :=
  [("degree", .str (pyStrip e.degree)),
   ("institution", .str (pyStrip e.institution)),
   ("dates", .str (pyStrip e.dates)),
   ("details", .list ((sanitize_multiline (.str e.details_text)).map PyVal.str))]

-- app.py:939-950 `sanitized_education`
def sanitized_education (inputs : List EduInput) : List PyVal :=
  inputs.filterMap (fun e =>
    if e.remove then Option.none
    else if pyStrip e.degree ≠ "" ∨ pyStrip e.institution ≠ "" ∨ pyStrip e.dates ≠ "" ∨
        sanitize_multiline (.str e.details_text) ≠ [] then
      some (.dict (cleanedEduEntry e))
    else Option.none)

-- app.py:962-967 `cleaned_entry` for a structured-section entry input
def cleanedStructEntry (e : StructEntryInput) : List (String × PyVal) :=
  [("title", .str (pyStrip e.title)),
   ("organization", .str (pyStrip e.organization)),
   ("dates", .str (pyStrip e.dates)),
   ("description", .list ((sanitize_multiline (.str e.description_text)).map PyVal.str))]

-- app.py:958-969 `entries_clean`
def entriesClean (inputs : List StructEntryInput) : List PyVal :=
  inputs.filterMap (fun e =>
    if e.remove then Option.none
    else if pyStrip e.title ≠ "" ∨ pyStrip e.organization ≠ "" ∨ pyStrip e.dates ≠ "" ∨
        sanitize_multiline (.str e.description_text) ≠ [] then
      some (.dict (cleanedStructEntry e))
    else Option.none)

-- app.py:952-983 `sanitized_other_sections`
def sanitized_other_sections (inputs : List SectionInput) : List PyVal :=
  inputs.filterMap (fun s =>
    if s.remove then Option.none
    else
      let title_clean := pyStrip s.section_title
      if s.section_type = "structured" then
        let ec := entriesClean s.entries_input
        if title_clean ≠ "" ∨ ¬ ec.isEmpty then
          some (.dict [("section_title", .str (if title_clean ≠ "" then title_clean else "Untitled Section")),
                       ("type", .str "structured"),
                       ("entries", .list ec)])
        else Option.none
      else
        let ic := sanitize_multiline (.str s.items_input)
        if title_clean ≠ "" ∨ ic ≠ [] then
          some (.dict [("section_title", .str (if title_clean ≠ "" then title_clean else "Untitled Section")),
                       ("type", .str "list"),
                       ("items", .list (ic.map PyVal.str))])
        else Option.none)

-- app.py:986-994 `contact_fields_raw` (fixed key order)
def contactPairs (e : EditInputs) : List (String × String) :=
  [("email", pyStrip e.email_value),
   ("phone", pyStrip e.phone_value),
   ("mobile", pyStrip e.mobile_value),
   ("location", pyStrip e.location_value),
   ("linkedin", pyStrip e.linkedin_value),
   ("website", pyStrip e.website_value),
   ("github", pyStrip e.github_value)]

-- app.py:995 `contact_fields`
def contact_fields (e : EditInputs) : List (String × String) :=
  (contactPairs e).filter (fun p => ¬ p.2 = "")

-- app.py:998-1003 `excluded_keys`
def excluded_keys : List String :=
  ["name", "experience", "education", "other_sections", "version",
   "email", "phone", "mobile", "location", "linkedin", "website", "github",
   "contact_details"]

-- app.py:997-1006 `preserved_fields` (`deepcopy` is the identity in this
-- pure model: the engine only needs structural equality of the copy)
def preserved_fields (prior : List (String × PyVal)) : List (String × PyVal) :=
  prior.filter (fun p => ¬ excluded_keys.contains p.1)

/-- app.py:1008-1029: building `updated_resume` from the prior (edited)
record and the form inputs — the reconcile/save step. -/
def reconcile (prior : List (String × PyVal)) (e : EditInputs) :
    List (String × PyVal) :=
  let u0 := preserved_fields prior
  let u1 := dictSet u0 "name" (.str (pyStrip e.name_value))
  let u2 := dictSet u1 "experience" (.list (sanitized_experience e.experience_inputs))
  let u3 := dictSet u2 "education" (.list (sanitized_education e.education_inputs))
  let u4 := dictSet u3 "other_sections" (.list (sanitized_other_sections e.other_sections_inputs))
  let u5 := (contact_fields e).foldl (fun acc p => dictSet acc p.1 (.str p.2)) u4
  let cdc := sanitize_multiline (.str e.contact_details_value)
  let u6 := if cdc ≠ [] then dictSet u5 "contact_details" (.list (cdc.map PyVal.str))
    else dictPop u5 "contact_details"
  let vc := pyStrip e.version_value
  if vc ≠ "" then dictSet u6 "version" (.str vc)
  else if dictHasKey u6 "version" then dictPop u6 "version"
  else u6

/-! ### Helper lemmas: stripping -/

theorem dropWhile_append_over (p : Char → Bool) (xs ys : List Char) :
    (xs ++ ys).dropWhile p =
      if (xs.dropWhile p).isEmpty then ys.dropWhile p else xs.dropWhile p ++ ys := by
  induction xs with
  | nil => simp
  | cons a xs ih =>
      by_cases h : p a <;> simp [List.dropWhile_cons, h, ih]

theorem dropWhile_cons_head (p : Char → Bool) (l : List Char) (a : Char)
    (t : List Char) (h : l.dropWhile p = a :: t) : ¬ p a := by
  intro hpa
  induction l with
  | nil => simp at h
  | cons b l ih =>
      rw [List.dropWhile_cons] at h
      by_cases hb : p b
      · simp [hb] at h; exact ih h
      · simp [hb] at h; cases h.1; exact hb hpa

theorem rstripChars_idem (l : List Char) :
    rstripChars (rstripChars l) = rstripChars l := by
  simp [rstripChars, List.dropWhile_idempotent]

theorem rstripChars_cons_form (a : Char) (t : List Char) :
    rstripChars (a :: t) = [] ∨ ∃ t2, rstripChars (a :: t) = a :: t2 := by
  have hrw : (a :: t).reverse = t.reverse ++ [a] := by simp
  unfold rstripChars
  rw [hrw, dropWhile_append_over]
  by_cases h : (t.reverse.dropWhile pyIsSpace).isEmpty
  · rw [if_pos h]
    by_cases hpa : pyIsSpace a
    · left; simp [List.dropWhile_cons, hpa]
    · right; exact ⟨[], by simp [List.dropWhile_cons, hpa]⟩
  · right
    rw [if_neg h]
    exact ⟨(t.reverse.dropWhile pyIsSpace).reverse, by simp⟩

theorem lstrip_rstrip_lstrip (l : List Char) :
    lstripChars (rstripChars (lstripChars l)) = rstripChars (lstripChars l) := by
  cases hm : lstripChars l with
  | nil => simp [rstripChars, lstripChars]
  | cons a t =>
      have hpa : ¬ pyIsSpace a := dropWhile_cons_head pyIsSpace l a t hm
      rcases rstripChars_cons_form a t with h | ⟨t2, h⟩
      · simp [h, lstripChars]
      · simp [h, lstripChars, List.dropWhile_cons, hpa]

theorem pyStrip_data (s : String) : (pyStrip s).data = rstripChars (lstripChars s.data) := rfl

theorem pyStrip_idem (s : String) : pyStrip (pyStrip s) = pyStrip s := by
  apply String.ext
  rw [pyStrip_data, pyStrip_data, lstrip_rstrip_lstrip, rstripChars_idem]

/-! ### Helper lemmas: dict operations -/

theorem dictGet_dictSet_self (d : List (String × PyVal)) (k : String) (v : PyVal) :
    dictGet (dictSet d k v) k = some v := by
  induction d with
  | nil => simp [dictSet, dictGet]
  | cons p rest ih =>
      by_cases h : p.1 = k
      · simp [dictSet, h, dictGet]
      · simp [dictSet, h, dictGet, ih]

theorem dictGet_dictSet_ne (d : List (String × PyVal)) (k' k : String) (v : PyVal)
    (h : ¬ k' = k) : dictGet (dictSet d k' v) k = dictGet d k := by
  induction d with
  | nil => simp [dictSet, dictGet, h]
  | cons p rest ih =>
      by_cases hp : p.1 = k'
      · simp [dictSet, hp, dictGet, h]
      · simp [dictSet, hp, dictGet, ih]

theorem dictGet_dictPop_self (d : List (String × PyVal)) (k : String) :
    dictGet (dictPop d k) k = Option.none := by
  induction d with
  | nil => simp [dictPop, dictGet]
  | cons p rest ih =>
      by_cases h : p.1 = k
      · simpa [dictPop, h] using ih
      · simpa [dictPop, h, dictGet] using ih

theorem dictGet_dictPop_ne (d : List (String × PyVal)) (k' k : String)
    (h : ¬ k' = k) : dictGet (dictPop d k') k = dictGet d k := by
  induction d with
  | nil => simp [dictPop]
  | cons p rest ih =>
      show dictGet ((p :: rest).filter _) k = _
      rw [List.filter_cons]
      by_cases hp : p.1 = k'
      · rw [if_neg (by simp [hp])]
        have hk : ¬ p.1 = k := by rw [hp]; exact h
        rw [show dictGet (p :: rest) k = dictGet rest k by simp [dictGet, hk]]
        exact ih
      · rw [if_pos (by simp [hp])]
        by_cases hk : p.1 = k
        · simp [dictGet, hk]
        · rw [show ∀ l, dictGet (p :: l) k = dictGet l k from fun l => by simp [dictGet, hk],
             show ∀ l, dictGet (p :: l) k = dictGet l k from fun l => by simp [dictGet, hk]]
          exact ih

theorem foldlSet_skip (ps : List (String × String)) (acc : List (String × PyVal))
    (k : String) (h : ∀ p ∈ ps, ¬ p.1 = k) :
    dictGet (ps.foldl (fun a p => dictSet a p.1 (.str p.2)) acc) k = dictGet acc k := by
  induction ps generalizing acc with
  | nil => rfl
  | cons q ps ih =>
      rw [List.foldl_cons, ih _ (fun p hp => h p (List.mem_cons_of_mem _ hp)),
          dictGet_dictSet_ne _ _ _ _ (h q (List.mem_cons_self _ _))]

theorem foldlSet_filter_get (ps : List (String × String)) (acc : List (String × PyVal))
    (k : String) (v0 : String)
    (hnd : (ps.map Prod.fst).Nodup) (hmem : (k, v0) ∈ ps) :
    dictGet ((ps.filter (fun p => ¬ p.2 = "")).foldl
        (fun a p => dictSet a p.1 (.str p.2)) acc) k
      = if v0 = "" then dictGet acc k else some (.str v0) := by
  induction ps generalizing acc with
  | nil => cases hmem
  | cons q ps ih =>
      rw [List.map_cons, List.nodup_cons] at hnd
      rw [List.filter_cons]
      rcases List.mem_cons.mp hmem with heq | hmem'
      · have hq : q = (k, v0) := heq.symm
        subst hq
        have hknotin : ∀ p ∈ ps.filter (fun p => ¬ p.2 = ""), ¬ p.1 = k := by
          intro p hp hpk
          have h1 : p ∈ ps := List.mem_of_mem_filter hp
          have h2 : p.1 ∈ ps.map Prod.fst := List.mem_map_of_mem Prod.fst h1
          rw [hpk] at h2
          exact hnd.1 h2
        by_cases hv : v0 = ""
        · rw [if_neg (by simp [hv]), if_pos hv]
          exact foldlSet_skip _ _ _ hknotin
        · rw [if_pos (by simp [hv]), if_neg hv, List.foldl_cons,
              foldlSet_skip _ _ _ hknotin, dictGet_dictSet_self]
      · have hqk : ¬ q.1 = k := by
          intro he
          exact hnd.1 (he ▸ List.mem_map_of_mem Prod.fst hmem')
        by_cases hq : q.2 = ""
        · rw [if_neg (by simp [hq])]
          exact ih _ hnd.2 hmem'
        · rw [if_pos (by simp [hq]), List.foldl_cons, ih _ hnd.2 hmem',
              dictGet_dictSet_ne _ _ _ _ hqk]

theorem dictGet_preserved_excluded (prior : List (String × PyVal)) (k : String)
    (h : excluded_keys.contains k = true) :
    dictGet (preserved_fields prior) k = Option.none := by
  induction prior with
  | nil => rfl
  | cons p rest ih =>
      rw [preserved_fields, List.filter_cons]
      by_cases hp : excluded_keys.contains p.1 = true
      · rw [if_neg (by simp only [decide_not, Bool.not_eq_true',
          decide_eq_false_iff_not, Decidable.not_not]; exact hp)]
        exact ih
      · rw [if_pos (by simp only [decide_not, Bool.not_eq_true',
          decide_eq_false_iff_not]; exact hp)]
        have hpk : ¬ p.1 = k := fun he => hp (he ▸ h)
        rw [show ∀ l, dictGet (p :: l) k = dictGet l k from
          fun l => by simp [dictGet, hpk]]
        exact ih

theorem dictGet_preserved_not_excluded (prior : List (String × PyVal)) (k : String)
    (h : ¬ excluded_keys.contains k = true) :
    dictGet (preserved_fields prior) k = dictGet prior k := by
  induction prior with
  | nil => rfl
  | cons p rest ih =>
      rw [preserved_fields, List.filter_cons]
      by_cases hpk : p.1 = k
      · rw [if_pos (by simp only [decide_not, Bool.not_eq_true',
          decide_eq_false_iff_not]; rw [hpk]; exact h)]
        simp [dictGet, hpk]
      · by_cases hp : excluded_keys.contains p.1 = true
        · rw [if_neg (by simp only [decide_not, Bool.not_eq_true',
            decide_eq_false_iff_not, Decidable.not_not]; exact hp)]
          rw [show dictGet (p :: rest) k = dictGet rest k by simp [dictGet, hpk]]
          exact ih
        · rw [if_pos (by simp only [decide_not, Bool.not_eq_true',
            decide_eq_false_iff_not]; exact hp)]
          rw [show ∀ l, dictGet (p :: l) k = dictGet l k from
            fun l => by simp [dictGet, hpk],
            show ∀ l, dictGet (p :: l) k = dictGet l k from
            fun l => by simp [dictGet, hpk]]
          exact ih

/-! ### Claim theorems -/

/-- Claim C1: for every input value that is not a record object (not a dict),
`validate_resume_data` returns exactly one error — the structural-format
message — and an empty warnings list; no other rule contributes. -/
theorem validate_non_dict (v : PyVal) (h : isDict v = false) :
    validate_resume_data v =
      .ok (["Parsed resume data is not in the expected format."], []) := by
  cases v <;> simp_all [validate_resume_data, isDict]

/-- Witness for C1 at the concrete non-dict input `"not a record"`. -/
theorem validate_non_dict_witness :
    isDict (PyVal.str "not a record") = false ∧
      validate_resume_data (PyVal.str "not a record") =
        .ok (["Parsed resume data is not in the expected format."], []) :=
  ⟨rfl, validate_non_dict (PyVal.str "not a record") rfl⟩

/-- Claim C3 (counterexample): `validate_resume_data` is not total — a dict
whose `other_sections` list contains a null element raises
(`section.get` on `None`), even though the top-level structural check
passed.  So an exception other than the structural short-circuit escapes. -/
theorem validate_raises_on_null_section :
    validate_resume_data (.dict [("other_sections", .list [.none])]) =
      .error "AttributeError" := rfl

def bothEmptyRecord : PyVal :=
  .dict [("name", .str "Bob Smith"),
         ("experience", .list [.dict
           [("title", .str ""), ("company", .str ""),
            ("dates", .str "d"), ("description", .list [.str "a long enough bullet"])]])]

/-- Claim C4 (counterexample): an experience entry with both title and company
empty yields the missing-both error AND both the missing-job-title and
missing-company warnings — the claim says neither warning appears. -/
theorem both_empty_entry_gets_both_warnings :
    validate_resume_data bothEmptyRecord =
      .ok (["Experience #1 is missing both title and company."],
           ["Experience #1 is missing job title.",
            "Experience #1 is missing company name.",
            "No education entries provided - consider adding your educational background."]) := rfl

/-- The failing input for claim C7: the saved source text degraded the smart
quotes to ASCII, so the "smart apostrophes" line lexes as one call replacing
the literal `, "\x27").replace(` — see `accidentalPattern`. -/
def mojibakeApostropheInput : String := ", â€\x27\").replace("

/-- Claim C7 (code bug): `clean_encoding` is not idempotent.  On
`mojibakeApostropheInput` the first pass turns the mojibake `â€` into `"`,
producing exactly `accidentalPattern`, which a second pass then replaces by
a lone apostrophe. -/
theorem clean_encoding_not_idempotent :
    clean_encoding mojibakeApostropheInput = ", \"\x27\").replace(" ∧
    clean_encoding (clean_encoding mojibakeApostropheInput) = "\x27" ∧
    clean_encoding (clean_encoding mojibakeApostropheInput) ≠
      clean_encoding mojibakeApostropheInput := by
  refine ⟨rfl, rfl, ?_⟩
  decide

def c2Inputs : EditInputs where
  name_value := "  "
  version_value := ""
  email_value := ""
  phone_value := ""
  mobile_value := ""
  location_value := ""
  linkedin_value := ""
  website_value := ""
  github_value := ""
  contact_details_value := ""
  experience_inputs :=
    [{ title := "", company := " Acme ", dates := "", description_text := "", remove := false }]
  education_inputs := []
  other_sections_inputs := []

/-- Claim C2 (counterexample): the record produced by the reconcile/save step
can hold empty strings — with a blank name and an experience entry whose only
non-empty field is the company, the saved record stores `name = ""` and the
entry keeps `title = ""` and `dates = ""`. -/
theorem reconcile_stores_empty_strings :
    dictGet (reconcile [] c2Inputs) "name" = some (.str "") ∧
    dictGet (reconcile [] c2Inputs) "experience" =
      some (.list [.dict [("title", .str ""), ("company", .str "Acme"),
        ("dates", .str ""), ("description", .list [])]]) :=
  ⟨rfl, rfl⟩

/-- Claim C8: a record whose name strips to the empty string and whose
experience list is empty validates to errors exactly
`["Candidate name is empty.", "No experience entries provided."]` in that
order, and the warnings are exactly the missing-education advisory. -/
theorem validate_empty_name_no_experience (s : String) (h : pyStrip s = "") :
    validate_resume_data (.dict [("name", .str s), ("experience", .list [])]) =
      .ok (["Candidate name is empty.", "No experience entries provided."],
           ["No education entries provided - consider adding your educational background."]) := by
  have h1 : safe_strip (.str s) = "" := h
  simp [validate_resume_data, dictGetD, dictGet, h1, nameChecks, expChecks,
    eduChecks, otherChecks, truthy, pyIterate, sectionLoop, bind, Except.bind,
    pure, Except.pure]

/-- Witness for C8 at `name = ""`. -/
theorem validate_empty_name_no_experience_witness :
    pyStrip "" = "" ∧
    validate_resume_data (.dict [("name", .str ""), ("experience", .list [])]) =
      .ok (["Candidate name is empty.", "No experience entries provided."],
           ["No education entries provided - consider adding your educational background."]) :=
  ⟨rfl, validate_empty_name_no_experience "" rfl⟩

/-! ### sanitize_multiline lemmas (claim C6) -/

theorem mem_strFilterMap (xs : List PyVal) (s : String)
    (h : s ∈ xs.filterMap (fun line =>
      match line with
      | .str t => if pyStrip t = "" then Option.none else some (pyStrip t)
      | _ => Option.none)) : pyStrip s = s ∧ ¬ s = "" := by
  rcases List.mem_filterMap.mp h with ⟨a, _, ha⟩
  cases a with
  | str t =>
      have ha2 : (if pyStrip t = "" then Option.none else some (pyStrip t)) = some s := ha
      by_cases hz : pyStrip t = ""
      · rw [if_pos hz] at ha2; cases ha2
      · rw [if_neg hz] at ha2
        injection ha2 with ha2
        subst ha2
        exact ⟨pyStrip_idem t, hz⟩
  | none => cases ha
  | bool b => cases ha
  | int n => cases ha
  | list l => cases ha
  | dict d => cases ha

theorem mem_lineFilterMap (ls : List String) (s : String)
    (h : s ∈ ls.filterMap (fun line =>
      if pyStrip line = "" then Option.none else some (pyStrip line))) :
    pyStrip s = s ∧ ¬ s = "" := by
  rcases List.mem_filterMap.mp h with ⟨a, _, ha⟩
  by_cases hz : pyStrip a = ""
  · rw [if_pos hz] at ha; cases ha
  · rw [if_neg hz] at ha
    injection ha with ha
    subst ha
    exact ⟨pyStrip_idem a, hz⟩

theorem mem_sanitize (v : PyVal) (s : String) (h : s ∈ sanitize_multiline v) :
    pyStrip s = s ∧ ¬ s = "" := by
  unfold sanitize_multiline at h
  split at h
  · cases h
  · split at h
    · exact mem_strFilterMap _ _ h
    · exact mem_lineFilterMap _ _ h

theorem lineFilterMap_fixed (outs : List String)
    (hfix : ∀ s ∈ outs, pyStrip s = s ∧ ¬ s = "") :
    outs.filterMap (fun line =>
      if pyStrip line = "" then Option.none else some (pyStrip line)) = outs := by
  induction outs with
  | nil => rfl
  | cons a t ih =>
      have ha := hfix a (List.mem_cons_self a t)
      have hfa : (if pyStrip a = "" then Option.none else some (pyStrip a)) = some a := by
        rw [if_neg (by rw [ha.1]; exact ha.2), ha.1]
      simp only [List.filterMap_cons, hfa]
      rw [ih (fun s hs => hfix s (List.mem_cons_of_mem _ hs))]

theorem sanitize_reinject (outs : List String)
    (hfix : ∀ s ∈ outs, pyStrip s = s ∧ ¬ s = "") :
    sanitize_multiline (.list (outs.map PyVal.str)) = outs := by
  cases outs with
  | nil => rfl
  | cons a t =>
      unfold sanitize_multiline
      rw [if_neg (by simp [truthy])]
      show (List.map PyVal.str (a :: t)).filterMap (fun line =>
        match line with
        | PyVal.str s => if pyStrip s = "" then Option.none else some (pyStrip s)
        | _ => Option.none) = a :: t
      rw [List.filterMap_map]
      exact lineFilterMap_fixed (a :: t) hfix

theorem lineFilterMap_as_filter (ls : List String) :
    ls.filterMap (fun line =>
      if pyStrip line = "" then Option.none else some (pyStrip line)) =
      (ls.map pyStrip).filter (fun s => ¬ s = "") := by
  induction ls with
  | nil => rfl
  | cons a t ih =>
      by_cases hz : pyStrip a = "" <;>
        simp [List.filterMap_cons, List.filter_cons, hz, ih]

/-- Claim C6: `sanitize_multiline` (the spec's `splitToLines`) returns only
trimmed non-empty entries; re-applying it to its own output is the identity
(idempotence); and on a list of strings or a single multi-line string it is
exactly "trim each line, drop the blank ones, in order". -/
theorem sanitize_multiline_spec :
    (∀ v : PyVal, ∀ s ∈ sanitize_multiline v, pyStrip s = s ∧ ¬ s = "") ∧
    (∀ v : PyVal,
      sanitize_multiline (.list ((sanitize_multiline v).map PyVal.str)) =
        sanitize_multiline v) ∧
    (∀ ls : List String,
      sanitize_multiline (.list (ls.map PyVal.str)) =
        (ls.map pyStrip).filter (fun s => ¬ s = "")) ∧
    (∀ s : String,
      sanitize_multiline (.str s) =
        ((pySplitlines s).map pyStrip).filter (fun t => ¬ t = "")) := by
  refine ⟨fun v s h => mem_sanitize v s h,
          fun v => sanitize_reinject _ (fun s hs => mem_sanitize v s hs),
          fun ls => ?_, fun s => ?_⟩
  · cases ls with
    | nil => rfl
    | cons a t =>
        unfold sanitize_multiline
        rw [if_neg (by simp [truthy])]
        show (List.map PyVal.str (a :: t)).filterMap (fun line =>
          match line with
          | PyVal.str s => if pyStrip s = "" then Option.none else some (pyStrip s)
          | _ => Option.none) = _
        rw [List.filterMap_map]
        exact lineFilterMap_as_filter (a :: t)
  · by_cases hz : s = ""
    · subst hz; rfl
    · unfold sanitize_multiline
      rw [if_neg (by simp [truthy, hz])]
      show (pySplitlines s).filterMap (fun line =>
        if pyStrip line = "" then Option.none else some (pyStrip line)) = _
      exact lineFilterMap_as_filter (pySplitlines s)

/-- Witness for C6: a concrete line of `"  alpha \n\n beta "` is returned
trimmed and non-blank. -/
theorem sanitize_multiline_spec_witness :
    pyStrip "alpha" = "alpha" ∧ ¬ "alpha" = "" :=
  sanitize_multiline_spec.1 (.str "  alpha \n\n beta ") "alpha" (by decide)

/-! ### Message algebra (claim C4) -/

theorem strExt (s t : String) (h : s.data = t.data) : s = t := by
  cases s; cases t; exact congrArg String.mk h

theorem strCancelLeft (a b c : String) (h : a ++ b = a ++ c) : b = c := by
  have h2 : a.data ++ b.data = a.data ++ c.data := congrArg String.data h
  exact strExt _ _ (List.append_cancel_left h2)

theorem expMsg_inj (idx : Nat) (a b : String) (h : expMsg idx a = expMsg idx b) :
    a = b :=
  strCancelLeft (toString idx) a b (strCancelLeft "Experience #" _ _ h)

theorem bulletMsg_decompose (idx bidx : Nat) (s : String) :
    bulletMsg idx bidx s = expMsg idx (", bullet " ++ (toString bidx ++ s)) := by
  simp [bulletMsg, expMsg, String.append_assoc]

theorem mem_bulletChecks (idx : Nat) (w : String) :
    ∀ (bidx : Nat) (ls : List String), w ∈ bulletChecks idx bidx ls →
      ∃ r, w = expMsg idx (", bullet " ++ r) := by
  intro bidx ls
  induction ls generalizing bidx with
  | nil => intro h; cases h
  | cons b rest ih =>
      intro h
      rw [bulletChecks] at h
      rcases List.mem_append.mp h with h1 | h2
      · rcases List.mem_append.mp h1 with h3 | h4
        · rcases (by
            by_cases hc : (pyStrip b).length < 10 <;> simp [hc] at h3 <;> try exact h3
            : w = bulletMsg idx bidx " is too short (less than 10 characters).") with h5
          exact ⟨toString bidx ++ " is too short (less than 10 characters).",
            h5.trans (bulletMsg_decompose idx bidx _)⟩
        · rcases (by
            by_cases hc : has_problematic_characters b <;> simp [hc] at h4 <;> try exact h4
            : w = bulletMsg idx bidx " contains special characters that may not render properly.") with h5
          exact ⟨toString bidx ++ " contains special characters that may not render properly.",
            h5.trans (bulletMsg_decompose idx bidx _)⟩
      · exact ih (bidx + 1) h2

theorem comma_ne_title (r : String) :
    ¬ (", bullet " ++ r = " is missing job title.") := by
  intro h
  have h2 : (", bullet " ++ r).data = (" is missing job title." : String).data :=
    congrArg String.data h
  rw [show (", bullet " ++ r).data = (", bullet " : String).data ++ r.data from rfl] at h2
  simp at h2

theorem comma_ne_company (r : String) :
    ¬ (", bullet " ++ r = " is missing company name.") := by
  intro h
  have h2 : (", bullet " ++ r).data = (" is missing company name." : String).data :=
    congrArg String.data h
  rw [show (", bullet " ++ r).data = (", bullet " : String).data ++ r.data from rfl] at h2
  simp at h2

/-- Equation form of the per-entry experience rule block (app.py:164-190). -/
theorem expEntryChecks_dict (idx : Nat) (d : List (String × PyVal)) :
    expEntryChecks idx (.dict d) = .ok
      ((if safe_strip (dictGetD d "title" (.str "")) = "" ∧
           safe_strip (dictGetD d "company" (.str "")) = "" then
          [expMsg idx " is missing both title and company."] else []),
       (if safe_strip (dictGetD d "title" (.str "")) = "" then
          [expMsg idx " is missing job title."] else []) ++
       (if safe_strip (dictGetD d "company" (.str "")) = "" then
          [expMsg idx " is missing company name."] else []) ++
       (if safe_strip (dictGetD d "dates" (.str "")) = "" then
          [expMsg idx " is missing dates."] else []) ++
       (if (sanitize_multiline (dictGetD d "description" (.list []))).isEmpty then
          [expMsg idx " has no bullet points."]
        else bulletChecks idx 1 (sanitize_multiline (dictGetD d "description" (.list []))))) := by
  have hED : (if truthy (.dict d) then PyVal.dict d else .dict []) = .dict d := by
    cases d <;> rfl
  rw [expEntryChecks, hED]
  simp only [pyGetD, bind, Except.bind, pure, Except.pure, Bool.and_eq_true,
    decide_eq_true_eq]

/-- Claim C4 (amended): within a validated record's per-entry experience
checks, the missing-job-title warning is emitted exactly when the title is
empty (regardless of company), the missing-company warning exactly when the
company is empty (regardless of title), and the missing-both error exactly
when both are empty — so a both-empty entry gets the error and both
warnings. -/
theorem exp_entry_warning_conditions (idx : Nat) (d : List (String × PyVal)) :
    ∃ er wr, expEntryChecks idx (.dict d) = .ok (er, wr) ∧
      (expMsg idx " is missing job title." ∈ wr ↔
        safe_strip (dictGetD d "title" (.str "")) = "") ∧
      (expMsg idx " is missing company name." ∈ wr ↔
        safe_strip (dictGetD d "company" (.str "")) = "") ∧
      (expMsg idx " is missing both title and company." ∈ er ↔
        (safe_strip (dictGetD d "title" (.str "")) = "" ∧
         safe_strip (dictGetD d "company" (.str "")) = "")) := by
  refine ⟨_, _, expEntryChecks_dict idx d, ?_, ?_, ?_⟩
  · by_cases hT : safe_strip (dictGetD d "title" (.str "")) = ""
    · refine iff_of_true ?_ hT
      rw [if_pos hT]
      exact List.mem_append_left _ (List.mem_append_left _
        (List.mem_append_left _ (List.mem_singleton_self _)))
    · refine iff_of_false ?_ hT
      intro hmem
      rcases List.mem_append.mp hmem with h | h4
      · rcases List.mem_append.mp h with h | h3
        · rcases List.mem_append.mp h with h1 | h2
          · rw [if_neg hT] at h1; cases h1
          · by_cases hC : safe_strip (dictGetD d "company" (.str "")) = ""
            · rw [if_pos hC] at h2
              have := expMsg_inj _ _ _ (List.mem_singleton.mp h2)
              exact absurd this (by decide)
            · rw [if_neg hC] at h2; cases h2
        · by_cases hD : safe_strip (dictGetD d "dates" (.str "")) = ""
          · rw [if_pos hD] at h3
            have := expMsg_inj _ _ _ (List.mem_singleton.mp h3)
            exact absurd this (by decide)
          · rw [if_neg hD] at h3; cases h3
      · by_cases hE : (sanitize_multiline (dictGetD d "description" (.list []))).isEmpty
        · rw [if_pos hE] at h4
          have := expMsg_inj _ _ _ (List.mem_singleton.mp h4)
          exact absurd this (by decide)
        · rw [if_neg hE] at h4
          rcases mem_bulletChecks idx _ 1 _ h4 with ⟨r, hr⟩
          exact comma_ne_title r (expMsg_inj _ _ _ hr).symm
  · by_cases hC : safe_strip (dictGetD d "company" (.str "")) = ""
    · refine iff_of_true ?_ hC
      rw [if_pos hC]
      exact List.mem_append_left _ (List.mem_append_left _
        (List.mem_append_right _ (List.mem_singleton_self _)))
    · refine iff_of_false ?_ hC
      intro hmem
      rcases List.mem_append.mp hmem with h | h4
      · rcases List.mem_append.mp h with h | h3
        · rcases List.mem_append.mp h with h1 | h2
          · by_cases hT : safe_strip (dictGetD d "title" (.str "")) = ""
            · rw [if_pos hT] at h1
              have := expMsg_inj _ _ _ (List.mem_singleton.mp h1)
              exact absurd this (by decide)
            · rw [if_neg hT] at h1; cases h1
          · rw [if_neg hC] at h2; cases h2
        · by_cases hD : safe_strip (dictGetD d "dates" (.str "")) = ""
          · rw [if_pos hD] at h3
            have := expMsg_inj _ _ _ (List.mem_singleton.mp h3)
            exact absurd this (by decide)
          · rw [if_neg hD] at h3; cases h3
      · by_cases hE : (sanitize_multiline (dictGetD d "description" (.list []))).isEmpty
        · rw [if_pos hE] at h4
          have := expMsg_inj _ _ _ (List.mem_singleton.mp h4)
          exact absurd this (by decide)
        · rw [if_neg hE] at h4
          rcases mem_bulletChecks idx _ 1 _ h4 with ⟨r, hr⟩
          exact comma_ne_company r (expMsg_inj _ _ _ hr).symm
  · by_cases hTC : safe_strip (dictGetD d "title" (.str "")) = "" ∧
        safe_strip (dictGetD d "company" (.str "")) = ""
    · refine iff_of_true ?_ hTC
      rw [if_pos hTC]
      exact List.mem_singleton_self _
    · refine iff_of_false ?_ hTC
      rw [if_neg hTC]
      exact List.not_mem_nil _

/-! ### Duplicate-scan characterization (claim C5) -/

def sigPairsInner (x : Signature) (i : Nat) : List (Nat × Signature) → List (Nat × Nat)
  | [] => []
  | (j, y) :: rest =>
      (if 2 ≤ matchCount x y then [(i, j)] else []) ++ sigPairsInner x i rest

def sigPairsOuter : List (Nat × Signature) → List (Nat × Nat)
  | [] => []
  | (i, x) :: rest => sigPairsInner x i rest ++ sigPairsOuter rest

def enumerateSigs (start : Nat) : List Signature → List (Nat × Signature)
  | [] => []
  | x :: rest => (start, x) :: enumerateSigs (start + 1) rest

/-- The index pairs the experience duplicate scan flags. -/
def sigPairs (sigs : List Signature) : List (Nat × Nat) :=
  sigPairsOuter (enumerateSigs 0 sigs)

theorem pairScore_comm (a b : String) : pairScore a b = pairScore b a := by
  unfold pairScore
  by_cases h : ¬ a = "" ∧ ¬ b = "" ∧ a = b
  · rw [if_pos h, if_pos ⟨h.2.1, h.1, h.2.2.symm⟩]
  · rw [if_neg h, if_neg (fun h2 => h ⟨h2.2.1, h2.1, h2.2.2.symm⟩)]

theorem matchCount_comm (s1 s2 : Signature) : matchCount s1 s2 = matchCount s2 s1 := by
  unfold matchCount
  rw [pairScore_comm s1.title, pairScore_comm s1.company,
      pairScore_comm s1.degree, pairScore_comm s1.institution]

theorem is_duplicate_entry_comm (e1 e2 : PyVal) :
    is_duplicate_entry e1 e2 = is_duplicate_entry e2 e1 := by
  cases e1 <;> cases e2 <;> try rfl
  case dict.dict kv1 kv2 =>
    show Except.ok (decide (2 ≤ matchCount (sigOfDict kv1) (sigOfDict kv2))) = _
    rw [matchCount_comm]
    rfl

theorem get_signature_dict (x : PyVal) (h : isDict x = true) :
    get_signature x = .ok (sigOfVal x) := by
  cases x <;> simp_all [get_signature, sigOfVal, isDict]

theorem mem_sigPairsInner (x : Signature) (i a b : Nat) :
    ∀ (n : Nat) (sigs : List Signature),
      ((a, b) ∈ sigPairsInner x i (enumerateSigs n sigs) ↔
        a = i ∧ ∃ k, k < sigs.length ∧ b = n + k ∧
          2 ≤ matchCount x (sigs.getD k sigDefault)) := by
  intro n sigs
  induction sigs generalizing n with
  | nil => simp [sigPairsInner, enumerateSigs]
  | cons y t ih =>
      rw [enumerateSigs, sigPairsInner, List.mem_append]
      constructor
      · rintro (h1 | h2)
        · by_cases hm : 2 ≤ matchCount x y
          · rw [if_pos hm] at h1
            have h := List.mem_singleton.mp h1
            injection h with ha hb
            exact ⟨ha, 0, by simp, by omega, by simpa⟩
          · rw [if_neg hm] at h1; cases h1
        · rcases (ih (n + 1)).mp h2 with ⟨ha, k, hk, hb, hm⟩
          exact ⟨ha, k + 1, by simp only [List.length_cons] at *; omega,
            by omega, by simpa using hm⟩
      · rintro ⟨ha, k, hk, hb, hm⟩
        cases k with
        | zero =>
            left
            rw [if_pos (by simpa using hm)]
            simp [ha, hb]
        | succ k2 =>
            right
            exact (ih (n + 1)).mpr ⟨ha, k2,
              by simp only [List.length_cons] at *; omega,
              by omega, by simpa using hm⟩

theorem mem_sigPairsOuter (a b : Nat) :
    ∀ (n : Nat) (sigs : List Signature),
      ((a, b) ∈ sigPairsOuter (enumerateSigs n sigs) ↔
        ∃ ki kj, ki < kj ∧ kj < sigs.length ∧ a = n + ki ∧ b = n + kj ∧
          2 ≤ matchCount (sigs.getD ki sigDefault) (sigs.getD kj sigDefault)) := by
  intro n sigs
  induction sigs generalizing n with
  | nil => simp [sigPairsOuter, enumerateSigs]
  | cons y t ih =>
      rw [enumerateSigs, sigPairsOuter, List.mem_append, mem_sigPairsInner, ih (n + 1)]
      constructor
      · rintro (⟨ha, k, hk, hb, hm⟩ | ⟨ki, kj, hij, hj, ha, hb, hm⟩)
        · exact ⟨0, k + 1, by omega, by simp only [List.length_cons] at *; omega,
            by omega, by omega, by simpa using hm⟩
        · exact ⟨ki + 1, kj + 1, by omega,
            by simp only [List.length_cons] at *; omega,
            by omega, by omega, by simpa using hm⟩
      · rintro ⟨ki, kj, hij, hj, ha, hb, hm⟩
        cases ki with
        | zero =>
            left
            cases kj with
            | zero => omega
            | succ kj2 =>
                exact ⟨by omega, kj2,
                  by simp only [List.length_cons] at *; omega,
                  by omega, by simpa using hm⟩
        | succ ki2 =>
            right
            cases kj with
            | zero => omega
            | succ kj2 =>
                exact ⟨ki2, kj2, by omega,
                  by simp only [List.length_cons] at *; omega,
                  by omega, by omega, by simpa using hm⟩

theorem mem_sigPairs (sigs : List Signature) (i j : Nat) :
    (i, j) ∈ sigPairs sigs ↔
      i < j ∧ j < sigs.length ∧
        2 ≤ matchCount (sigs.getD i sigDefault) (sigs.getD j sigDefault) := by
  rw [sigPairs, mem_sigPairsOuter]
  constructor
  · rintro ⟨ki, kj, hij, hj, ha, hb, hm⟩
    refine ⟨by omega, by omega, ?_⟩
    rw [show i = ki by omega, show j = kj by omega]
    exact hm
  · rintro ⟨hij, hj, hm⟩
    exact ⟨i, j, hij, hj, by omega, by omega, hm⟩

theorem dupScanInner_eq (x : PyVal) (i : Nat) (hx : isDict x = true) :
    ∀ (rest : List (Nat × PyVal)), (∀ p ∈ rest, isDict p.2 = true) →
      dupScanInner x i rest = .ok ((sigPairsInner (sigOfVal x) i
        (rest.map (fun p => (p.1, sigOfVal p.2)))).map (fun p => dupMsg p.1 p.2)) := by
  intro rest
  induction rest with
  | nil => intro _; rfl
  | cons q rest ih =>
      intro hall
      obtain ⟨j, y⟩ := q
      have hy : isDict y = true := hall (j, y) (List.mem_cons_self _ _)
      have hdup : is_duplicate_entry x y =
          .ok (decide (2 ≤ matchCount (sigOfVal x) (sigOfVal y))) := by
        rw [is_duplicate_entry, get_signature_dict x hx, get_signature_dict y hy]
        rfl
      rw [dupScanInner, hdup, ih (fun p hp => hall p (List.mem_cons_of_mem _ hp))]
      show Except.ok _ = _
      rw [List.map_cons]
      rw [sigPairsInner, List.map_append]
      by_cases hm : 2 ≤ matchCount (sigOfVal x) (sigOfVal y)
      · rw [if_pos (by simpa using hm), if_pos hm]
        rfl
      · rw [if_neg (by simpa using hm), if_neg hm]
        rfl

theorem dupScanOuter_eq :
    ∀ (entries : List (Nat × PyVal)), (∀ p ∈ entries, isDict p.2 = true) →
      dupScanOuter entries = .ok ((sigPairsOuter
        (entries.map (fun p => (p.1, sigOfVal p.2)))).map (fun p => dupMsg p.1 p.2)) := by
  intro entries
  induction entries with
  | nil => intro _; rfl
  | cons q rest ih =>
      intro hall
      obtain ⟨i, x⟩ := q
      have hx : isDict x = true := hall (i, x) (List.mem_cons_self _ _)
      rw [dupScanOuter,
          dupScanInner_eq x i hx rest (fun p hp => hall p (List.mem_cons_of_mem _ hp)),
          ih (fun p hp => hall p (List.mem_cons_of_mem _ hp))]
      show Except.ok _ = _
      rw [List.map_cons, sigPairsOuter, List.map_append]

theorem enumerateSigs_map (exps : List PyVal) :
    ∀ n, enumerateSigs n (exps.map sigOfVal) =
      (enumerateFrom n exps).map (fun p => (p.1, sigOfVal p.2)) := by
  induction exps with
  | nil => intro n; rfl
  | cons x t ih =>
      intro n
      rw [List.map_cons, enumerateSigs, enumerateFrom, List.map_cons, ih (n + 1)]

theorem sigPairs_short (sigs : List Signature) (h : sigs.length ≤ 1) :
    sigPairs sigs = [] := by
  cases sigs with
  | nil => rfl
  | cons y t =>
      cases t with
      | nil => rfl
      | cons z t2 => simp at h

theorem mem_enumerateFrom (p : Nat × PyVal) :
    ∀ (m : Nat) (xs : List PyVal), p ∈ enumerateFrom m xs → p.2 ∈ xs := by
  intro m xs
  induction xs generalizing m with
  | nil => intro hm; cases hm
  | cons x t ih =>
      intro hm
      rcases List.mem_cons.mp hm with h1 | h2
      · rw [h1]; exact List.mem_cons_self _ _
      · exact List.mem_cons_of_mem _ (ih (m + 1) h2)

theorem dupWarnings_eq (exps : List PyVal) (h : ∀ x ∈ exps, isDict x = true) :
    dupWarnings exps =
      .ok ((sigPairs (exps.map sigOfVal)).map (fun p => dupMsg p.1 p.2)) := by
  rw [dupWarnings]
  by_cases hl : exps.length > 1
  · rw [if_pos hl,
        dupScanOuter_eq (enumerateFrom 0 exps) ?hmem,
        sigPairs, enumerateSigs_map]
    case hmem =>
      intro p hp
      exact h p.2 (mem_enumerateFrom p 0 exps hp)
  · rw [if_neg hl, sigPairs_short _ (by simpa using hl)]
    rfl

/-- Claim C5: the duplicate scan flags exactly the ordered pairs `i < j`
whose signatures agree on at least 2 of the 4 (lowercased, trimmed)
positions non-empty in both; the pairwise test is symmetric; and no entry
is ever flagged against itself. -/
theorem duplicate_detection_spec (exps : List PyVal)
    (h : ∀ x ∈ exps, isDict x = true) :
    dupWarnings exps =
      .ok ((sigPairs (exps.map sigOfVal)).map (fun p => dupMsg p.1 p.2)) ∧
    (∀ e1 e2, is_duplicate_entry e1 e2 = is_duplicate_entry e2 e1) ∧
    (∀ (sigs : List Signature) (i j : Nat),
      ((i, j) ∈ sigPairs sigs ↔
        i < j ∧ j < sigs.length ∧
          2 ≤ matchCount (sigs.getD i sigDefault) (sigs.getD j sigDefault))) ∧
    (∀ (sigs : List Signature) (i : Nat), (i, i) ∉ sigPairs sigs) :=
  ⟨dupWarnings_eq exps h, is_duplicate_entry_comm,
   fun sigs i j => mem_sigPairs sigs i j,
   fun sigs i hmem => absurd ((mem_sigPairs sigs i i).mp hmem).1 (lt_irrefl i)⟩

def dupExps : List PyVal :=
  [PyVal.dict [("title", PyVal.str "Engineer"), ("company", PyVal.str "Acme")],
   PyVal.dict [("title", PyVal.str " engineer"), ("company", PyVal.str "ACME"),
               ("dates", PyVal.str "2020")]]

/-- Witness for C5: two entries agreeing on lowercased title and company are
flagged once, as pair (1, 2). -/
theorem duplicate_detection_spec_witness :
    (∀ x ∈ dupExps, isDict x = true) ∧
    dupWarnings dupExps = .ok ["Experience #1 and #2 appear to be duplicates."] :=
  ⟨by decide, by rw [(duplicate_detection_spec dupExps (by decide)).1]; rfl⟩

/-! ### Totality of validate on lists of objects (claim C3) -/

theorem expEntryChecks_ok (idx : Nat) (entry : PyVal) (h : isDict entry = true) :
    ∃ p, expEntryChecks idx entry = .ok p := by
  cases entry with
  | dict d => exact ⟨_, expEntryChecks_dict idx d⟩
  | none => simp [isDict] at h
  | bool b => simp [isDict] at h
  | int n => simp [isDict] at h
  | str s => simp [isDict] at h
  | list l => simp [isDict] at h

theorem expLoop_ok : ∀ (idx : Nat) (xs : List PyVal), (∀ x ∈ xs, isDict x = true) →
    ∃ p, expLoop idx xs = .ok p := by
  intro idx xs
  induction xs generalizing idx with
  | nil => intro _; exact ⟨([], []), rfl⟩
  | cons x t ih =>
      intro hall
      obtain ⟨⟨er, wr⟩, hx⟩ := expEntryChecks_ok idx x (hall x (List.mem_cons_self _ _))
      obtain ⟨⟨er2, wr2⟩, ht⟩ := ih (idx + 1) (fun y hy => hall y (List.mem_cons_of_mem _ hy))
      refine ⟨(er ++ er2, wr ++ wr2), ?_⟩
      rw [expLoop, hx, ht]
      rfl

theorem expChecks_ok (xs : List PyVal) (hall : ∀ x ∈ xs, isDict x = true) :
    ∃ p, expChecks (.list xs) = .ok p := by
  by_cases ht : truthy (.list xs)
  · obtain ⟨⟨er, wr⟩, h1⟩ := expLoop_ok 1 xs hall
    have h2 := dupWarnings_eq xs hall
    refine ⟨(er, wr ++ (sigPairs (xs.map sigOfVal)).map (fun p => dupMsg p.1 p.2)), ?_⟩
    have heq : expChecks (.list xs) =
        bind (expLoop 1 xs) (fun p => match p with
          | (er2, wr2) => bind (dupWarnings xs) (fun dw => pure (er2, wr2 ++ dw))) := by
      rw [expChecks, if_neg (not_not_intro ht)]
      rfl
    rw [heq, h1, h2]
    rfl
  · refine ⟨(["No experience entries provided."], []), ?_⟩
    rw [expChecks, if_pos ht]

/-- Equation form of the per-entry education rule block (app.py:204-218). -/
theorem eduEntryChecks_dict (idx : Nat) (d : List (String × PyVal)) :
    eduEntryChecks idx (.dict d) =
      (if safe_strip (dictGetD d "degree" (.str "")) = "" &&
          safe_strip (dictGetD d "institution" (.str "")) = "" &&
          safe_strip (dictGetD d "dates" (.str "")) = "" then
        Except.ok (["Education entry #" ++ toString idx ++ " is completely empty."], [])
      else Except.ok ([],
        (if safe_strip (dictGetD d "degree" (.str "")) = "" then
          ["Education #" ++ toString idx ++ " is missing degree/credential."] else [])
        ++ (if safe_strip (dictGetD d "institution" (.str "")) = "" then
          ["Education #" ++ toString idx ++ " is missing institution name."] else [])
        ++ (if safe_strip (dictGetD d "dates" (.str "")) = "" then
          ["Education #" ++ toString idx ++ " is missing dates."] else []))) := by
  have hED : (if truthy (.dict d) then PyVal.dict d else .dict []) = .dict d := by
    cases d <;> rfl
  rw [eduEntryChecks, hED]
  rfl

theorem eduEntryChecks_ok (idx : Nat) (entry : PyVal) (h : isDict entry = true) :
    ∃ p, eduEntryChecks idx entry = .ok p := by
  cases entry with
  | dict d =>
      rw [eduEntryChecks_dict]
      by_cases hc : (safe_strip (dictGetD d "degree" (.str "")) = "" &&
          safe_strip (dictGetD d "institution" (.str "")) = "" &&
          safe_strip (dictGetD d "dates" (.str "")) = "") = true
      · exact ⟨_, by rw [if_pos hc]⟩
      · exact ⟨_, by rw [if_neg hc]⟩
  | none => simp [isDict] at h
  | bool b => simp [isDict] at h
  | int n => simp [isDict] at h
  | str s => simp [isDict] at h
  | list l => simp [isDict] at h

theorem eduLoop_ok : ∀ (idx : Nat) (ys : List PyVal), (∀ y ∈ ys, isDict y = true) →
    ∃ p, eduLoop idx ys = .ok p := by
  intro idx ys
  induction ys generalizing idx with
  | nil => intro _; exact ⟨([], []), rfl⟩
  | cons y t ih =>
      intro hall
      obtain ⟨⟨er, wr⟩, hy⟩ := eduEntryChecks_ok idx y (hall y (List.mem_cons_self _ _))
      obtain ⟨⟨er2, wr2⟩, ht⟩ := ih (idx + 1) (fun z hz => hall z (List.mem_cons_of_mem _ hz))
      refine ⟨(er ++ er2, wr ++ wr2), ?_⟩
      rw [eduLoop, hy, ht]
      rfl

theorem eduChecks_ok (ys : List PyVal) (hall : ∀ y ∈ ys, isDict y = true) :
    ∃ p, eduChecks (.list ys) = .ok p := by
  by_cases ht : truthy (.list ys)
  · obtain ⟨p, h1⟩ := eduLoop_ok 1 ys hall
    refine ⟨p, ?_⟩
    have heq : eduChecks (.list ys) = eduLoop 1 ys := by
      rw [eduChecks, if_neg (not_not_intro ht)]
      rfl
    rw [heq, h1]
  · exact ⟨_, by rw [eduChecks, if_pos ht]⟩

/-- The `entries` value a structured section would iterate. -/
def entriesValOf (sec : PyVal) : PyVal :=
  match sec with
  | .dict kv => dictGetD kv "entries" (.list [])
  | _ => .none

/-- The `items` value a list section would iterate. -/
def itemsValOf (sec : PyVal) : PyVal :=
  match sec with
  | .dict kv => dictGetD kv "items" (.list [])
  | _ => .none

/-- Equation form of the structured-section per-entry rule (app.py:233-237). -/
theorem structEntryCheck_dict (stitle : String) (eidx : Nat)
    (d : List (String × PyVal)) :
    structEntryCheck stitle eidx (.dict d) =
      (if safe_strip (dictGetD d "title" (.str "")) = "" &&
          safe_strip (dictGetD d "organization" (.str "")) = "" &&
          ¬ truthy (dictGetD d "description" (.list [])) then
        Except.ok [sectionMsgT stitle (", entry #" ++ toString eidx ++ " is empty.")]
      else Except.ok []) := by
  rw [structEntryCheck]
  rfl

theorem structEntryCheck_ok (stitle : String) (eidx : Nat) (entry : PyVal)
    (h : isDict entry = true) : ∃ w, structEntryCheck stitle eidx entry = .ok w := by
  cases entry with
  | dict d =>
      rw [structEntryCheck_dict]
      by_cases hc : (safe_strip (dictGetD d "title" (.str "")) = "" &&
          safe_strip (dictGetD d "organization" (.str "")) = "" &&
          ¬ truthy (dictGetD d "description" (.list []))) = true
      · exact ⟨_, by rw [if_pos hc]⟩
      · exact ⟨_, by rw [if_neg hc]⟩
  | none => simp [isDict] at h
  | bool b => simp [isDict] at h
  | int n => simp [isDict] at h
  | str s => simp [isDict] at h
  | list l => simp [isDict] at h

theorem structEntriesLoop_ok (stitle : String) :
    ∀ (eidx : Nat) (es : List PyVal), (∀ x ∈ es, isDict x = true) →
      ∃ w, structEntriesLoop stitle eidx es = .ok w := by
  intro eidx es
  induction es generalizing eidx with
  | nil => intro _; exact ⟨[], rfl⟩
  | cons x t ih =>
      intro hall
      obtain ⟨w, hx⟩ := structEntryCheck_ok stitle eidx x (hall x (List.mem_cons_self _ _))
      obtain ⟨ws, ht⟩ := ih (eidx + 1) (fun y hy => hall y (List.mem_cons_of_mem _ hy))
      refine ⟨w ++ ws, ?_⟩
      rw [structEntriesLoop, hx, ht]
      rfl

theorem sectionChecks_ok (sidx : Nat) (sec : PyVal) (hd : isDict sec = true)
    (es : List PyVal) (hes : entriesValOf sec = .list es)
    (hesd : ∀ x ∈ es, isDict x = true)
    (its : List PyVal) (hits : itemsValOf sec = .list its) :
    ∃ w, sectionChecks sidx sec = .ok w := by
  cases sec with
  | dict kv =>
      simp only [entriesValOf] at hes
      simp only [itemsValOf] at hits
      by_cases hty : isStrEq (dictGetD kv "type" (.str "")) "structured" = true
      · obtain ⟨ws, hloop⟩ := structEntriesLoop_ok
          (safe_strip (dictGetD kv "section_title" (.str ""))) 1 es hesd
        refine ⟨(if safe_strip (dictGetD kv "section_title" (.str "")) = "" then
            ["Additional section #" ++ toString sidx ++ " has no title."] else [])
          ++ (if ¬ truthy (.list es) then
            [sectionMsgT (safe_strip (dictGetD kv "section_title" (.str ""))) " has no entries."] else [])
          ++ ws, ?_⟩
        have heq : sectionChecks sidx (.dict kv) =
            bind (pyIterate (dictGetD kv "entries" (.list []))) (fun es2 =>
              bind (structEntriesLoop
                  (safe_strip (dictGetD kv "section_title" (.str ""))) 1 es2) (fun w2 =>
                pure ((if safe_strip (dictGetD kv "section_title" (.str "")) = "" then
                    ["Additional section #" ++ toString sidx ++ " has no title."] else [])
                  ++ (if ¬ truthy (dictGetD kv "entries" (.list [])) then
                    [sectionMsgT (safe_strip (dictGetD kv "section_title" (.str ""))) " has no entries."] else [])
                  ++ w2))) := by
          rw [sectionChecks]
          show (if isStrEq (dictGetD kv "type" (.str "")) "structured" = true
              then _ else _) = _
          rw [if_pos hty]
          rfl
        rw [heq, hes]
        show (bind (structEntriesLoop
          (safe_strip (dictGetD kv "section_title" (.str ""))) 1 es) _ :
            Except String _) = _
        rw [hloop]
        rfl
      · by_cases hty2 : isStrEq (dictGetD kv "type" (.str "")) "list" = true
        · refine ⟨(if safe_strip (dictGetD kv "section_title" (.str "")) = "" then
              ["Additional section #" ++ toString sidx ++ " has no title."] else [])
            ++ (if ¬ truthy (.list its) then
              [sectionMsgT (safe_strip (dictGetD kv "section_title" (.str ""))) " has no items."] else [])
            ++ listItemsLoop (safe_strip (dictGetD kv "section_title" (.str ""))) 1 its, ?_⟩
          have heq : sectionChecks sidx (.dict kv) =
              bind (pyIterate (dictGetD kv "items" (.list []))) (fun its2 =>
                pure ((if safe_strip (dictGetD kv "section_title" (.str "")) = "" then
                    ["Additional section #" ++ toString sidx ++ " has no title."] else [])
                  ++ (if ¬ truthy (dictGetD kv "items" (.list [])) then
                    [sectionMsgT (safe_strip (dictGetD kv "section_title" (.str ""))) " has no items."] else [])
                  ++ listItemsLoop (safe_strip (dictGetD kv "section_title" (.str ""))) 1 its2)) := by
            rw [sectionChecks]
            show (if isStrEq (dictGetD kv "type" (.str "")) "structured" = true
                then _ else _) = _
            rw [if_neg hty]
            show (if isStrEq (dictGetD kv "type" (.str "")) "list" = true
                then _ else _) = _
            rw [if_pos hty2]
            rfl
          rw [heq, hits]
          rfl
        · refine ⟨(if safe_strip (dictGetD kv "section_title" (.str "")) = "" then
              ["Additional section #" ++ toString sidx ++ " has no title."] else []), ?_⟩
          rw [sectionChecks]
          show (if isStrEq (dictGetD kv "type" (.str "")) "structured" = true
              then _ else _) = _
          rw [if_neg hty]
          show (if isStrEq (dictGetD kv "type" (.str "")) "list" = true
              then _ else _) = _
          rw [if_neg hty2]
          rfl
  | none => simp [isDict] at hd
  | bool b => simp [isDict] at hd
  | int n => simp [isDict] at hd
  | str s => simp [isDict] at hd
  | list l => simp [isDict] at hd

theorem sectionLoop_ok :
    ∀ (sidx : Nat) (ss : List PyVal),
      (∀ s ∈ ss, isDict s = true ∧
        (∃ es, entriesValOf s = .list es ∧ ∀ x ∈ es, isDict x = true) ∧
        (∃ its, itemsValOf s = .list its)) →
      ∃ w, sectionLoop sidx ss = .ok w := by
  intro sidx ss
  induction ss generalizing sidx with
  | nil => intro _; exact ⟨[], rfl⟩
  | cons s t ih =>
      intro hall
      obtain ⟨hd, ⟨es, hes, hesd⟩, ⟨its, hits⟩⟩ := hall s (List.mem_cons_self _ _)
      obtain ⟨w, hs⟩ := sectionChecks_ok sidx s hd es hes hesd its hits
      obtain ⟨ws, ht⟩ := ih (sidx + 1) (fun y hy => hall y (List.mem_cons_of_mem _ hy))
      refine ⟨w ++ ws, ?_⟩
      rw [sectionLoop, hs, ht]
      rfl

/-- Claim C3 (amended): `validate_resume_data` returns an (errors, warnings)
pair without raising for every dict whose `experience` and `education`
values are lists of objects, and whose `other_sections` value is a list of
objects in which every section's `entries` value is a list of objects and
its `items` value is a list; a null or non-object element in those
positions can raise instead, so only this restricted totality holds beyond
the top-level structural check. -/
theorem validate_total_on_object_lists (kvs : List (String × PyVal))
    (xs ys ss : List PyVal)
    (hexp : dictGetD kvs "experience" (.list []) = .list xs)
    (hexpd : ∀ x ∈ xs, isDict x = true)
    (hedu : dictGetD kvs "education" (.list []) = .list ys)
    (hedud : ∀ y ∈ ys, isDict y = true)
    (hos : dictGetD kvs "other_sections" (.list []) = .list ss)
    (hossd : ∀ s ∈ ss, isDict s = true ∧
      (∃ es, entriesValOf s = .list es ∧ ∀ x ∈ es, isDict x = true) ∧
      (∃ its, itemsValOf s = .list its)) :
    ∃ p, validate_resume_data (.dict kvs) = .ok p := by
  obtain ⟨⟨e2, w2⟩, hexpok⟩ := expChecks_ok xs hexpd
  obtain ⟨⟨e3, w3⟩, heduok⟩ := eduChecks_ok ys hedud
  obtain ⟨w4, hosok⟩ := sectionLoop_ok 1 ss hossd
  rcases hname : nameChecks (safe_strip (dictGetD kvs "name" (.str ""))) with ⟨e1, w1⟩
  refine ⟨(e1 ++ e2 ++ e3, w1 ++ w2 ++ w3 ++ w4), ?_⟩
  rw [validate_resume_data, hexp, hedu, hos, hname, hexpok, heduok]
  show (bind (sectionLoop 1 ss) _ : Except String _) = _
  rw [hosok]
  rfl

def wellFormedExample : List (String × PyVal) :=
  [("name", .str "Ada Lovelace"),
   ("experience", .list [.dict [("title", .str "Engineer"),
     ("company", .str "Acme"), ("dates", .str "2020"),
     ("description", .list [.str "Did responsible things daily"])]]),
   ("education", .list [.dict [("degree", .str "BSc"),
     ("institution", .str "Uni"), ("dates", .str "2016")]]),
   ("other_sections", .list [.dict [("section_title", .str "Skills"),
     ("type", .str "list"), ("items", .list [.str "Lean"])]])]

/-- Witness for the amended C3 at a fully well-formed record. -/
theorem validate_total_on_object_lists_witness :
    ∃ p, validate_resume_data (.dict wellFormedExample) = .ok p :=
  validate_total_on_object_lists wellFormedExample _ _ _
    rfl (by decide) rfl (by decide) rfl
    (by intro s hs
        rcases List.mem_singleton.mp hs with h
        subst h
        exact ⟨rfl, ⟨[], rfl, by intro x hx; cases hx⟩, ⟨[.str "Lean"], rfl⟩⟩)

/-! ### Reconcile step characterization (claims C2, C9, C10) -/

def contactKeys : List String :=
  ["email", "phone", "mobile", "location", "linkedin", "website", "github"]

/-- The record after the four always-set keys (app.py:1008-1015). -/
def u4Of (prior : List (String × PyVal)) (e : EditInputs) : List (String × PyVal) :=
  dictSet (dictSet (dictSet (dictSet (preserved_fields prior)
    "name" (.str (pyStrip e.name_value)))
    "experience" (.list (sanitized_experience e.experience_inputs)))
    "education" (.list (sanitized_education e.education_inputs)))
    "other_sections" (.list (sanitized_other_sections e.other_sections_inputs))

/-- After the contact-field re-assembly loop (app.py:1017-1018). -/
def u5Of (prior : List (String × PyVal)) (e : EditInputs) : List (String × PyVal) :=
  (contact_fields e).foldl (fun acc p => dictSet acc p.1 (.str p.2)) (u4Of prior e)

/-- After the contact_details step (app.py:1020-1023). -/
def u6Of (prior : List (String × PyVal)) (e : EditInputs) : List (String × PyVal) :=
  if sanitize_multiline (.str e.contact_details_value) ≠ [] then
    dictSet (u5Of prior e) "contact_details"
      (.list ((sanitize_multiline (.str e.contact_details_value)).map PyVal.str))
  else dictPop (u5Of prior e) "contact_details"

theorem reconcile_def (prior : List (String × PyVal)) (e : EditInputs) :
    reconcile prior e =
      (if pyStrip e.version_value ≠ "" then
        dictSet (u6Of prior e) "version" (.str (pyStrip e.version_value))
      else if dictHasKey (u6Of prior e) "version" then dictPop (u6Of prior e) "version"
      else u6Of prior e) := rfl

theorem mem_contact_fields_key (e : EditInputs) (p : String × String)
    (hp : p ∈ contact_fields e) : p.1 ∈ contactKeys := by
  have h1 : p ∈ contactPairs e := List.mem_of_mem_filter hp
  simp only [contactPairs, List.mem_cons, List.not_mem_nil, or_false] at h1
  rcases h1 with h | h | h | h | h | h | h <;> (subst h; simp [contactKeys])

theorem reconcile_get_ne_version (prior : List (String × PyVal)) (e : EditInputs)
    (k : String) (h : ¬ k = "version") :
    dictGet (reconcile prior e) k = dictGet (u6Of prior e) k := by
  rw [reconcile_def]
  by_cases hv : pyStrip e.version_value ≠ ""
  · rw [if_pos hv, dictGet_dictSet_ne _ _ _ _ (fun he => h he.symm)]
  · rw [if_neg hv]
    by_cases hh : dictHasKey (u6Of prior e) "version" = true
    · rw [if_pos hh, dictGet_dictPop_ne _ _ _ (fun he => h he.symm)]
    · rw [if_neg hh]

theorem u6_get_ne_cd (prior : List (String × PyVal)) (e : EditInputs)
    (k : String) (h : ¬ k = "contact_details") :
    dictGet (u6Of prior e) k = dictGet (u5Of prior e) k := by
  rw [u6Of]
  by_cases hc : sanitize_multiline (.str e.contact_details_value) ≠ []
  · rw [if_pos hc, dictGet_dictSet_ne _ _ _ _ (fun he => h he.symm)]
  · rw [if_neg hc, dictGet_dictPop_ne _ _ _ (fun he => h he.symm)]

theorem u5_get_not_contact (prior : List (String × PyVal)) (e : EditInputs)
    (k : String) (h : ¬ k ∈ contactKeys) :
    dictGet (u5Of prior e) k = dictGet (u4Of prior e) k := by
  apply foldlSet_skip
  intro p hp hpk
  exact h (hpk ▸ mem_contact_fields_key e p hp)

theorem u4_get_other (prior : List (String × PyVal)) (e : EditInputs) (k : String)
    (h1 : ¬ k = "name") (h2 : ¬ k = "experience")
    (h3 : ¬ k = "education") (h4 : ¬ k = "other_sections") :
    dictGet (u4Of prior e) k = dictGet (preserved_fields prior) k := by
  rw [u4Of, dictGet_dictSet_ne _ _ _ _ (fun he => h4 he.symm),
      dictGet_dictSet_ne _ _ _ _ (fun he => h3 he.symm),
      dictGet_dictSet_ne _ _ _ _ (fun he => h2 he.symm),
      dictGet_dictSet_ne _ _ _ _ (fun he => h1 he.symm)]

theorem u4_get_name (prior : List (String × PyVal)) (e : EditInputs) :
    dictGet (u4Of prior e) "name" = some (.str (pyStrip e.name_value)) := by
  rw [u4Of, dictGet_dictSet_ne _ _ _ _ (by decide),
      dictGet_dictSet_ne _ _ _ _ (by decide),
      dictGet_dictSet_ne _ _ _ _ (by decide),
      dictGet_dictSet_self]

theorem u4_get_experience (prior : List (String × PyVal)) (e : EditInputs) :
    dictGet (u4Of prior e) "experience" =
      some (.list (sanitized_experience e.experience_inputs)) := by
  rw [u4Of, dictGet_dictSet_ne _ _ _ _ (by decide),
      dictGet_dictSet_ne _ _ _ _ (by decide),
      dictGet_dictSet_self]

theorem u4_get_education (prior : List (String × PyVal)) (e : EditInputs) :
    dictGet (u4Of prior e) "education" =
      some (.list (sanitized_education e.education_inputs)) := by
  rw [u4Of, dictGet_dictSet_ne _ _ _ _ (by decide), dictGet_dictSet_self]

theorem u4_get_other_sections (prior : List (String × PyVal)) (e : EditInputs) :
    dictGet (u4Of prior e) "other_sections" =
      some (.list (sanitized_other_sections e.other_sections_inputs)) := by
  rw [u4Of, dictGet_dictSet_self]

/-- The raw widget value behind each contact key. -/
def rawContact (e : EditInputs) (k : String) : String :=
  if k = "email" then e.email_value
  else if k = "phone" then e.phone_value
  else if k = "mobile" then e.mobile_value
  else if k = "location" then e.location_value
  else if k = "linkedin" then e.linkedin_value
  else if k = "website" then e.website_value
  else if k = "github" then e.github_value
  else ""

theorem reconcile_get_contact (prior : List (String × PyVal)) (e : EditInputs)
    (k : String) (hk : k ∈ contactKeys) :
    dictGet (reconcile prior e) k =
      (if pyStrip (rawContact e k) = "" then Option.none
       else some (.str (pyStrip (rawContact e k)))) := by
  have hnd : ((contactPairs e).map Prod.fst).Nodup := by
    show (["email", "phone", "mobile", "location", "linkedin",
      "website", "github"] : List String).Nodup
    decide
  simp only [contactKeys, List.mem_cons, List.not_mem_nil, or_false] at hk
  rcases hk with h | h | h | h | h | h | h
  · subst h
    rw [reconcile_get_ne_version _ _ _ (by decide), u6_get_ne_cd _ _ _ (by decide)]
    have h5 : dictGet (u5Of prior e) "email" =
        (if pyStrip e.email_value = "" then dictGet (u4Of prior e) "email"
         else some (.str (pyStrip e.email_value))) :=
      foldlSet_filter_get (contactPairs e) (u4Of prior e) "email"
        (pyStrip e.email_value) hnd (by simp [contactPairs])
    have hraw : rawContact e "email" = e.email_value := rfl
    rw [h5, hraw]
    by_cases hz : pyStrip e.email_value = ""
    · rw [if_pos hz, if_pos hz,
          u4_get_other _ _ _ (by decide) (by decide) (by decide) (by decide),
          dictGet_preserved_excluded _ _ (by decide)]
    · rw [if_neg hz, if_neg hz]
  · subst h
    rw [reconcile_get_ne_version _ _ _ (by decide), u6_get_ne_cd _ _ _ (by decide)]
    have h5 : dictGet (u5Of prior e) "phone" =
        (if pyStrip e.phone_value = "" then dictGet (u4Of prior e) "phone"
         else some (.str (pyStrip e.phone_value))) :=
      foldlSet_filter_get (contactPairs e) (u4Of prior e) "phone"
        (pyStrip e.phone_value) hnd (by simp [contactPairs])
    have hraw : rawContact e "phone" = e.phone_value := rfl
    rw [h5, hraw]
    by_cases hz : pyStrip e.phone_value = ""
    · rw [if_pos hz, if_pos hz,
          u4_get_other _ _ _ (by decide) (by decide) (by decide) (by decide),
          dictGet_preserved_excluded _ _ (by decide)]
    · rw [if_neg hz, if_neg hz]
  · subst h
    rw [reconcile_get_ne_version _ _ _ (by decide), u6_get_ne_cd _ _ _ (by decide)]
    have h5 : dictGet (u5Of prior e) "mobile" =
        (if pyStrip e.mobile_value = "" then dictGet (u4Of prior e) "mobile"
         else some (.str (pyStrip e.mobile_value))) :=
      foldlSet_filter_get (contactPairs e) (u4Of prior e) "mobile"
        (pyStrip e.mobile_value) hnd (by simp [contactPairs])
    have hraw : rawContact e "mobile" = e.mobile_value := rfl
    rw [h5, hraw]
    by_cases hz : pyStrip e.mobile_value = ""
    · rw [if_pos hz, if_pos hz,
          u4_get_other _ _ _ (by decide) (by decide) (by decide) (by decide),
          dictGet_preserved_excluded _ _ (by decide)]
    · rw [if_neg hz, if_neg hz]
  · subst h
    rw [reconcile_get_ne_version _ _ _ (by decide), u6_get_ne_cd _ _ _ (by decide)]
    have h5 : dictGet (u5Of prior e) "location" =
        (if pyStrip e.location_value = "" then dictGet (u4Of prior e) "location"
         else some (.str (pyStrip e.location_value))) :=
      foldlSet_filter_get (contactPairs e) (u4Of prior e) "location"
        (pyStrip e.location_value) hnd (by simp [contactPairs])
    have hraw : rawContact e "location" = e.location_value := rfl
    rw [h5, hraw]
    by_cases hz : pyStrip e.location_value = ""
    · rw [if_pos hz, if_pos hz,
          u4_get_other _ _ _ (by decide) (by decide) (by decide) (by decide),
          dictGet_preserved_excluded _ _ (by decide)]
    · rw [if_neg hz, if_neg hz]
  · subst h
    rw [reconcile_get_ne_version _ _ _ (by decide), u6_get_ne_cd _ _ _ (by decide)]
    have h5 : dictGet (u5Of prior e) "linkedin" =
        (if pyStrip e.linkedin_value = "" then dictGet (u4Of prior e) "linkedin"
         else some (.str (pyStrip e.linkedin_value))) :=
      foldlSet_filter_get (contactPairs e) (u4Of prior e) "linkedin"
        (pyStrip e.linkedin_value) hnd (by simp [contactPairs])
    have hraw : rawContact e "linkedin" = e.linkedin_value := rfl
    rw [h5, hraw]
    by_cases hz : pyStrip e.linkedin_value = ""
    · rw [if_pos hz, if_pos hz,
          u4_get_other _ _ _ (by decide) (by decide) (by decide) (by decide),
          dictGet_preserved_excluded _ _ (by decide)]
    · rw [if_neg hz, if_neg hz]
  · subst h
    rw [reconcile_get_ne_version _ _ _ (by decide), u6_get_ne_cd _ _ _ (by decide)]
    have h5 : dictGet (u5Of prior e) "website" =
        (if pyStrip e.website_value = "" then dictGet (u4Of prior e) "website"
         else some (.str (pyStrip e.website_value))) :=
      foldlSet_filter_get (contactPairs e) (u4Of prior e) "website"
        (pyStrip e.website_value) hnd (by simp [contactPairs])
    have hraw : rawContact e "website" = e.website_value := rfl
    rw [h5, hraw]
    by_cases hz : pyStrip e.website_value = ""
    · rw [if_pos hz, if_pos hz,
          u4_get_other _ _ _ (by decide) (by decide) (by decide) (by decide),
          dictGet_preserved_excluded _ _ (by decide)]
    · rw [if_neg hz, if_neg hz]
  · subst h
    rw [reconcile_get_ne_version _ _ _ (by decide), u6_get_ne_cd _ _ _ (by decide)]
    have h5 : dictGet (u5Of prior e) "github" =
        (if pyStrip e.github_value = "" then dictGet (u4Of prior e) "github"
         else some (.str (pyStrip e.github_value))) :=
      foldlSet_filter_get (contactPairs e) (u4Of prior e) "github"
        (pyStrip e.github_value) hnd (by simp [contactPairs])
    have hraw : rawContact e "github" = e.github_value := rfl
    rw [h5, hraw]
    by_cases hz : pyStrip e.github_value = ""
    · rw [if_pos hz, if_pos hz,
          u4_get_other _ _ _ (by decide) (by decide) (by decide) (by decide),
          dictGet_preserved_excluded _ _ (by decide)]
    · rw [if_neg hz, if_neg hz]

theorem reconcile_get_name (prior : List (String × PyVal)) (e : EditInputs) :
    dictGet (reconcile prior e) "name" = some (.str (pyStrip e.name_value)) := by
  rw [reconcile_get_ne_version _ _ _ (by decide), u6_get_ne_cd _ _ _ (by decide),
      u5_get_not_contact _ _ _ (by decide), u4_get_name]

theorem reconcile_get_experience (prior : List (String × PyVal)) (e : EditInputs) :
    dictGet (reconcile prior e) "experience" =
      some (.list (sanitized_experience e.experience_inputs)) := by
  rw [reconcile_get_ne_version _ _ _ (by decide), u6_get_ne_cd _ _ _ (by decide),
      u5_get_not_contact _ _ _ (by decide), u4_get_experience]

theorem reconcile_get_education (prior : List (String × PyVal)) (e : EditInputs) :
    dictGet (reconcile prior e) "education" =
      some (.list (sanitized_education e.education_inputs)) := by
  rw [reconcile_get_ne_version _ _ _ (by decide), u6_get_ne_cd _ _ _ (by decide),
      u5_get_not_contact _ _ _ (by decide), u4_get_education]

theorem reconcile_get_other_sections (prior : List (String × PyVal)) (e : EditInputs) :
    dictGet (reconcile prior e) "other_sections" =
      some (.list (sanitized_other_sections e.other_sections_inputs)) := by
  rw [reconcile_get_ne_version _ _ _ (by decide), u6_get_ne_cd _ _ _ (by decide),
      u5_get_not_contact _ _ _ (by decide), u4_get_other_sections]

theorem u6_get_version_none (prior : List (String × PyVal)) (e : EditInputs) :
    dictGet (u6Of prior e) "version" = Option.none := by
  rw [u6_get_ne_cd _ _ _ (by decide), u5_get_not_contact _ _ _ (by decide),
      u4_get_other _ _ _ (by decide) (by decide) (by decide) (by decide),
      dictGet_preserved_excluded _ _ (by decide)]

theorem reconcile_get_version (prior : List (String × PyVal)) (e : EditInputs) :
    dictGet (reconcile prior e) "version" =
      (if pyStrip e.version_value = "" then Option.none
       else some (.str (pyStrip e.version_value))) := by
  rw [reconcile_def]
  by_cases hv : pyStrip e.version_value = ""
  · rw [if_neg (not_not_intro hv), if_pos hv]
    rw [if_neg (by rw [dictHasKey, u6_get_version_none]; simp)]
    exact u6_get_version_none prior e
  · rw [if_pos hv, if_neg hv, dictGet_dictSet_self]

theorem reconcile_get_contact_details (prior : List (String × PyVal)) (e : EditInputs) :
    dictGet (reconcile prior e) "contact_details" =
      (if sanitize_multiline (.str e.contact_details_value) = [] then Option.none
       else some (.list ((sanitize_multiline (.str e.contact_details_value)).map PyVal.str))) := by
  rw [reconcile_get_ne_version _ _ _ (by decide), u6Of]
  by_cases hc : sanitize_multiline (.str e.contact_details_value) = []
  · rw [if_neg (not_not_intro hc), if_pos hc, dictGet_dictPop_self]
  · rw [if_pos hc, if_neg hc, dictGet_dictSet_self]

theorem mem_sanitized_experience (inputs : List ExpInput) (entry : PyVal)
    (h : entry ∈ sanitized_experience inputs) :
    ∃ t c dt ds, entry = .dict [("title", .str t), ("company", .str c),
      ("dates", .str dt), ("description", .list ds)] ∧
      pyStrip t = t ∧ pyStrip c = c ∧ pyStrip dt = dt := by
  rcases List.mem_filterMap.mp h with ⟨a, _, ha⟩
  by_cases hr : a.remove
  · rw [if_pos hr] at ha; cases ha
  · rw [if_neg hr] at ha
    by_cases hk : pyStrip a.title ≠ "" ∨ pyStrip a.company ≠ "" ∨ pyStrip a.dates ≠ "" ∨
        sanitize_multiline (.str a.description_text) ≠ []
    · rw [if_pos hk] at ha
      injection ha with ha
      exact ⟨pyStrip a.title, pyStrip a.company, pyStrip a.dates,
        (sanitize_multiline (.str a.description_text)).map PyVal.str,
        ha.symm, pyStrip_idem _, pyStrip_idem _, pyStrip_idem _⟩
    · rw [if_neg hk] at ha; cases ha

theorem mem_sanitized_education (inputs : List EduInput) (entry : PyVal)
    (h : entry ∈ sanitized_education inputs) :
    ∃ dg inst dt ds, entry = .dict [("degree", .str dg), ("institution", .str inst),
      ("dates", .str dt), ("details", .list ds)] ∧
      pyStrip dg = dg ∧ pyStrip inst = inst ∧ pyStrip dt = dt := by
  rcases List.mem_filterMap.mp h with ⟨a, _, ha⟩
  by_cases hr : a.remove
  · rw [if_pos hr] at ha; cases ha
  · rw [if_neg hr] at ha
    by_cases hk : pyStrip a.degree ≠ "" ∨ pyStrip a.institution ≠ "" ∨ pyStrip a.dates ≠ "" ∨
        sanitize_multiline (.str a.details_text) ≠ []
    · rw [if_pos hk] at ha
      injection ha with ha
      exact ⟨pyStrip a.degree, pyStrip a.institution, pyStrip a.dates,
        (sanitize_multiline (.str a.details_text)).map PyVal.str,
        ha.symm, pyStrip_idem _, pyStrip_idem _, pyStrip_idem _⟩
    · rw [if_neg hk] at ha; cases ha

/-- Claim C2 (amended): every string the reconcile/save step stores is
trimmed; the seven contact fields are absent or non-empty trimmed strings;
but `name` and the scalar fields of surviving experience/education entries
are always present and may be the empty string. -/
theorem reconcile_stored_strings (prior : List (String × PyVal)) (e : EditInputs) :
    (dictGet (reconcile prior e) "name" = some (.str (pyStrip e.name_value))) ∧
    (∀ k ∈ contactKeys, ∀ v, dictGet (reconcile prior e) k = some v →
      ∃ s, v = .str s ∧ pyStrip s = s ∧ ¬ s = "") ∧
    (dictGet (reconcile prior e) "experience" =
      some (.list (sanitized_experience e.experience_inputs))) ∧
    (∀ entry ∈ sanitized_experience e.experience_inputs,
      ∃ t c dt ds, entry = .dict [("title", .str t), ("company", .str c),
        ("dates", .str dt), ("description", .list ds)] ∧
        pyStrip t = t ∧ pyStrip c = c ∧ pyStrip dt = dt) ∧
    (∀ entry ∈ sanitized_education e.education_inputs,
      ∃ dg inst dt ds, entry = .dict [("degree", .str dg), ("institution", .str inst),
        ("dates", .str dt), ("details", .list ds)] ∧
        pyStrip dg = dg ∧ pyStrip inst = inst ∧ pyStrip dt = dt) := by
  refine ⟨reconcile_get_name prior e, ?_, reconcile_get_experience prior e,
    fun entry h => mem_sanitized_experience _ entry h,
    fun entry h => mem_sanitized_education _ entry h⟩
  intro k hk v hv
  rw [reconcile_get_contact prior e k hk] at hv
  by_cases hz : pyStrip (rawContact e k) = ""
  · rw [if_pos hz] at hv; cases hv
  · rw [if_neg hz] at hv
    injection hv with hv
    exact ⟨pyStrip (rawContact e k), hv.symm, pyStrip_idem _, hz⟩

/-- Witness for the amended C2: with email `" a@b.c "` the saved record holds
the trimmed non-empty string, and the stored (possibly empty) name is the
stripped widget value. -/
theorem reconcile_stored_strings_witness :
    ∃ s, PyVal.str "a@b.c" = PyVal.str s ∧ pyStrip s = s ∧ ¬ s = "" :=
  (reconcile_stored_strings [] { c2Inputs with email_value := " a@b.c " }).2.1
    "email" (by decide) (.str "a@b.c") (by rfl)

/-- Claim C9: every top-level key of the prior record outside the known
schema keys is carried into the reconciled record unchanged (`deepcopy` is
structural identity in this pure model): no extension key is dropped,
renamed, or mutated. -/
theorem extension_fields_preserved (prior : List (String × PyVal)) (e : EditInputs)
    (k : String) (h : ¬ excluded_keys.contains k = true) :
    dictGet (reconcile prior e) k = dictGet prior k := by
  have hname : ¬ k = "name" := fun he => h (by rw [he]; decide)
  have hexp : ¬ k = "experience" := fun he => h (by rw [he]; decide)
  have hedu : ¬ k = "education" := fun he => h (by rw [he]; decide)
  have hos : ¬ k = "other_sections" := fun he => h (by rw [he]; decide)
  have hver : ¬ k = "version" := fun he => h (by rw [he]; decide)
  have hcd : ¬ k = "contact_details" := fun he => h (by rw [he]; decide)
  have hcon : ¬ k ∈ contactKeys := by
    intro hmem
    simp only [contactKeys, List.mem_cons, List.not_mem_nil, or_false] at hmem
    rcases hmem with hh | hh | hh | hh | hh | hh | hh <;>
      exact h (by rw [hh]; decide)
  rw [reconcile_get_ne_version _ _ _ hver, u6_get_ne_cd _ _ _ hcd,
      u5_get_not_contact _ _ _ hcon,
      u4_get_other _ _ _ hname hexp hedu hos,
      dictGet_preserved_not_excluded _ _ h]

def c9Prior : List (String × PyVal) :=
  [("custom_key", .dict [("a", .list [.int 1])]), ("name", .str "Old"),
   ("version", .str "v2")]

/-- Witness for C9: the unrecognized key `custom_key` survives a reconcile
that rewrites every known field. -/
theorem extension_fields_preserved_witness :
    dictGet (reconcile c9Prior c2Inputs) "custom_key" =
      some (.dict [("a", .list [.int 1])]) :=
  (extension_fields_preserved c9Prior c2Inputs "custom_key" (by decide)).trans rfl

/-- Claim C10: the reconciled record always contains `name`, `experience`,
`education` and `other_sections`; it contains `version` exactly when the
stripped version input is non-empty, and `contact_details` exactly when the
sanitized contact-details input is non-empty. -/
theorem reconcile_key_presence (prior : List (String × PyVal)) (e : EditInputs) :
    (dictGet (reconcile prior e) "name").isSome = true ∧
    (dictGet (reconcile prior e) "experience").isSome = true ∧
    (dictGet (reconcile prior e) "education").isSome = true ∧
    (dictGet (reconcile prior e) "other_sections").isSome = true ∧
    ((dictGet (reconcile prior e) "version").isSome = true ↔
      ¬ pyStrip e.version_value = "") ∧
    ((dictGet (reconcile prior e) "contact_details").isSome = true ↔
      ¬ sanitize_multiline (.str e.contact_details_value) = []) := by
  refine ⟨by rw [reconcile_get_name]; rfl,
          by rw [reconcile_get_experience]; rfl,
          by rw [reconcile_get_education]; rfl,
          by rw [reconcile_get_other_sections]; rfl, ?_, ?_⟩
  · rw [reconcile_get_version]
    by_cases hv : pyStrip e.version_value = ""
    · rw [if_pos hv]
      simp [hv]
    · rw [if_neg hv]
      simp [hv]
  · rw [reconcile_get_contact_details]
    by_cases hc : sanitize_multiline (.str e.contact_details_value) = []
    · rw [if_pos hc]
      simp [hc]
    · rw [if_neg hc]
      simp [hc]
